import Mathlib

/-!
Shallow embedding of the moltbot-site repository (a static informational
website with JSON data files, browser-side rendering modules and Node.js
maintenance scripts), together with theorems settling the frozen claims
about its specification.

Each definition translates one JavaScript function of the source tree;
state (DOM buttons, filesystem, fetch network, clocks, randomness) is made
explicit as parameters and returned values.  Machine-level JavaScript
facilities that are not repository code (the WHATWG URL parser, the regex
engine Unicode emoji class) are modelled by total Lean approximations and
marked as such in their doc comments.
-/

/-- JavaScript substring containment, as used by `String.prototype.includes`:
`strIncludes s sub` is true when `sub` occurs contiguously inside `s`. -/
def strIncludes (s sub : String) : Bool :=
  decide (sub.toList <:+: s.toList)

/-- JavaScript `String.prototype.trim`, modelled by stripping leading and
trailing whitespace characters (computable by structural recursion, unlike
the library trim). -/
def jsTrim (s : String) : String :=
  String.mk ((s.toList.dropWhile Char.isWhitespace).reverse.dropWhile
    Char.isWhitespace).reverse

/-- A JSON value, the dynamic data model every component reads.  JavaScript
`undefined` (absent property) is identified with `null`; both are falsy and
the validator treats them alike. -/
inductive Json where
  | null
  | bool (b : Bool)
  | num (n : Int)
  | str (s : String)
  | arr (elems : List Json)
  | obj (fields : List (String × Json))

/-- JavaScript property access `j[k]`: on an object, the value stored under
`k` (absent key gives `undefined`, modelled `null`); on any other value,
`undefined`. -/
def Json.get (j : Json) (k : String) : Json :=
  match j with
  | .obj fs => (fs.lookup k).getD .null
  | _ => .null

/-- JavaScript truthiness of a JSON value. -/
def Json.truthy : Json → Bool
  | .null => false
  | .bool b => b
  | .num n => n != 0
  | .str s => s != ""
  | .arr _ => true
  | .obj _ => true

/-- The element list of a JSON array, empty for any non-array. -/
def Json.asArr : Json → List Json
  | .arr xs => xs
  | _ => []

/-- Whether a JSON value is an array (`Array.isArray`). -/
def Json.isArr : Json → Bool
  | .arr _ => true
  | _ => false

namespace NewsRenderer

/-- A news item as consumed by the news renderer
(`js/renderers/news-renderer.js`).  `tags` is optional because the code
guards it with `item.tags || []`; the other fields are read directly. -/
structure NewsItem where
  id : String
  title : String
  summary : String
  platform : String
  platform_type : String
  source_url : String
  publish_date : String
  image : String
  tags : Option (List String)
deriving DecidableEq

/-- `matchesNewsFilter(item, filter)` from `news-renderer.js`: decides
whether a news item passes the currently selected filter chip. -/
def matchesNewsFilter (item : NewsItem) (filter : String) : Bool :=
  if filter = "all" then
    true
  else
    let tags := item.tags.getD []
    if filter = "news" then
      strIncludes item.platform_type "英文" && tags.contains "发布"
    else if filter = "showcase" then
      tags.contains "案例" || tags.contains "体验"
    else if filter = "code" then
      tags.contains "教程" || tags.contains "开发"
    else if filter = "screenshot" then
      tags.contains "截图" || tags.contains "界面"
    else
      true

end NewsRenderer

namespace SkillsRenderer

/-- A skill record as consumed by the skills renderer
(`js/renderers/skills-renderer.js`).  `categoryId` is present on records
produced by the aggregating loader but is never read by this renderer.
A missing or empty string field is written `""` (both are falsy in the
source); `features` is optional because `renderFeatureList` guards it. -/
structure Skill where
  id : String
  name : String
  title : String
  description : String
  author : String
  github_url : String
  install_cmd : String
  category : String
  categoryId : Option String
  features : Option (List String)
  use_case : String
  stars : String
  icon : String

/-- The install-command box of a card: `renderInstallCommand` either shows a
literal no-command placeholder (falsy command) or the command text plus a
copy button. -/
inductive InstallBox where
  | noCmd
  | withCopyBtn (cmd : String)
deriving DecidableEq

/-- `renderInstallCommand(installCmd)` from `skills-renderer.js`. -/
def renderInstallCommand (installCmd : String) : InstallBox :=
  if installCmd = "" then .noCmd else .withCopyBtn installCmd

/-- `renderFeatureList(features)`: an absent or empty feature list renders
as an empty list (an empty `ul`, not omitted). -/
def renderFeatureList (features : Option (List String)) : List String :=
  match features with
  | none => []
  | some fs => fs

/-- The displayed content of one rendered skill card, one field per
interpolation slot of `generateSkillCard`. -/
structure Card where
  icon : String
  titleZh : String
  titleEn : String
  desc : String
  features : List String
  useCase : String
  author : String
  starsText : String
  githubUrl : String
  installBox : InstallBox
deriving DecidableEq

/-- `generateSkillCard(skill)` from `skills-renderer.js`: builds one card
from a skill record (`skill.stars ? star-prefixed text : empty`). -/
def generateSkillCard (skill : Skill) : Card :=
  { icon := skill.icon
    titleZh := skill.title
    titleEn := skill.name
    desc := skill.description
    features := renderFeatureList skill.features
    useCase := skill.use_case
    author := skill.author
    starsText := if skill.stars != "" then "⭐ " ++ skill.stars else ""
    githubUrl := skill.github_url
    installBox := renderInstallCommand skill.install_cmd }

/-- The outcome of one `renderSkills` call on the skills grid: the rendered
cards in order, and whether the empty-state panel replaced them. -/
structure RenderResult where
  cards : List Card
  emptyState : Bool
deriving DecidableEq

/-- `renderSkills(filter, data)` from `skills-renderer.js`, restricted to
its effect on the grid: `all` passes every record, any other filter keeps
exactly the records whose `category` field equals the filter; when zero
cards were appended the empty-state panel is rendered. -/
def renderSkills (filter : String) (items : List Skill) : RenderResult :=
  let filtered := if filter = "all" then items
                  else items.filter (fun s => s.category = filter)
  let cards := filtered.map generateSkillCard
  { cards := cards, emptyState := cards.isEmpty }

end SkillsRenderer

namespace CopyUtil

/-- The observable state of a copy button: its displayed content, its
inline background style and the saved `dataset.originalContent`
(absent until the first `showFeedback`). -/
structure Btn where
  innerHTML : String
  background : String
  originalContent : Option String
deriving DecidableEq

/-- The green success gradient applied by `showFeedback`. -/
def successGradient : String :=
  "linear-gradient(135deg, #4ade80 0%, #22c55e 100%)"

/-- The red failure gradient applied by `showFeedback`. -/
def failureGradient : String :=
  "linear-gradient(135deg, #ef4444 0%, #dc2626 100%)"

/-- JavaScript truthiness of a `dataset` entry: an absent entry and a
stored empty string are both falsy. -/
def datasetTruthy (o : Option String) : Bool :=
  match o with
  | some s => s != ""
  | none => false

/-- `showFeedback(btn, text, isSuccess)` from the copy utility: a no-op on
a missing button; otherwise saves the original content — the source guard
is `!btn.dataset.originalContent`, so a previously saved *empty* string
counts as unsaved and is overwritten — then replaces the content with the
feedback text and sets the success or failure gradient. -/
def showFeedback (btn : Option Btn) (text : String) (isSuccess : Bool) : Option Btn :=
  match btn with
  | none => none
  | some b =>
    let b := if !datasetTruthy b.originalContent
             then { b with originalContent := some b.innerHTML }
             else b
    some { b with
           innerHTML := text
           background := if isSuccess then successGradient else failureGradient }

/-- `resetButton(btn)` from the copy utility: restores the saved original
content and deletes the saved copy — the source guard is
`if (btn.dataset.originalContent)`, so a saved *empty* string (falsy) is
neither restored nor deleted — then clears the background override. -/
def resetButton (btn : Option Btn) : Option Btn :=
  match btn with
  | none => none
  | some b =>
    let b := if datasetTruthy b.originalContent then
               { b with innerHTML := b.originalContent.getD ""
                        originalContent := none }
             else b
    some { b with background := "" }

/-- The outcome of one `copyText` call: the returned boolean, the button
state right after the call, and whether a delayed `resetButton` callback
was scheduled by this call. -/
structure CopyOutcome where
  ret : Bool
  btn : Option Btn
  resetScheduled : Bool
deriving DecidableEq

/-- `copyText(text, btn, timeout)` from the copy utility.  The ambient
clipboard is made explicit: `clipboardAvailable` is `navigator.clipboard`
being present, `writeSucceeds` is whether `writeText` resolves.  Note the
source schedules the delayed reset only on the two branches that reach a
`setTimeout`, and only when a button was passed. -/
def copyText (clipboardAvailable writeSucceeds : Bool) (btn : Option Btn) : CopyOutcome :=
  if !clipboardAvailable then
    { ret := false, btn := showFeedback btn "❌ 不支持" false, resetScheduled := false }
  else if writeSucceeds then
    { ret := true, btn := showFeedback btn "✅ 已复制!" true, resetScheduled := btn.isSome }
  else
    { ret := false, btn := showFeedback btn "❌ 失败" false, resetScheduled := btn.isSome }

/-- The button state after the feedback timeout would have fired: the
scheduled `resetButton` runs, or nothing happens if none was scheduled. -/
def buttonAfterTimeout (o : CopyOutcome) : Option Btn :=
  if o.resetScheduled then resetButton o.btn else o.btn

end CopyUtil

namespace Loader

/-- A skill record as consumed by the data-loader filter helpers
(`js/data-loader.js`, `filterSkills`).  Optional fields model properties
that may be absent on the raw JSON record (the source guards them with
optional chaining or strict-equality comparisons). -/
structure SkillRec where
  id : String
  category : Option String
  categoryId : Option String
  tags : Option (List String)
  author : Option String
deriving DecidableEq

/-- The `filters` argument of `filterSkills`: each key may be absent. -/
structure SkillFilters where
  category : Option String
  tags : Option (List String)
  author : Option String

/-- JavaScript truthiness of an optional string (absent and empty are
falsy). -/
def optTruthy (o : Option String) : Bool :=
  match o with
  | none => false
  | some s => s != ""

/-- The first `filterSkills` stage: the category filter (matching either
`categoryId` or the `category` display name), skipped for a falsy filter
and for the literal `all`. -/
def categoryStage (filters : SkillFilters) (filtered : List SkillRec) : List SkillRec :=
  match filters.category with
  | some c =>
    if c != "" && c != "all" then
      filtered.filter (fun item =>
        item.categoryId = some c || item.category = some c)
    else filtered
  | none => filtered

/-- The second `filterSkills` stage: keep the items sharing at least one
tag with the filter list, skipped for an absent or empty list. -/
def tagsStage (filters : SkillFilters) (filtered : List SkillRec) : List SkillRec :=
  match filters.tags with
  | some ts =>
    if ts.length > 0 then
      filtered.filter (fun item =>
        ts.any (fun tag => (item.tags.getD []).contains tag))
    else filtered
  | none => filtered

/-- The third `filterSkills` stage: the case-insensitive author substring
filter, skipped for a falsy filter. -/
def authorStage (filters : SkillFilters) (filtered : List SkillRec) : List SkillRec :=
  match filters.author with
  | some a =>
    if a != "" then
      filtered.filter (fun item =>
        match item.author with
        | some ia => strIncludes ia.toLower a.toLower
        | none => false)
    else filtered
  | none => filtered

/-- `filterSkills(items, filters)` from `js/data-loader.js`: spreads the
input into a fresh array, then reassigns it through the category, tag and
author filter stages in order. -/
def filterSkills (items : List SkillRec) (filters : SkillFilters) : List SkillRec :=
  authorStage filters (tagsStage filters (categoryStage filters items))

/-- One cached fetch: the parsed body and the time it was stored. -/
structure CacheEntry where
  data : Json
  timestamp : Nat

/-- The loader cache, a map from resource path to cached entry
(`this.cache`, a JavaScript `Map`). -/
abbrev Cache := List (String × CacheEntry)

/-- `Map.set`: replace the entry under the key in place, or append it. -/
def cacheSet (c : Cache) (p : String) (e : CacheEntry) : Cache :=
  match List.lookup p c with
  | some _ => c.map (fun kv => if kv.1 = p then (p, e) else kv)
  | none => c ++ [(p, e)]

/-- The outcome `fetch(path)` can have: a parsed success body, a non-2xx
response, or a rejection / body-parse failure carrying a message. -/
inductive FetchOutcome where
  | ok (body : Json)
  | notOk (status : Nat)
  | fail (msg : String)

/-- The ambient network, resolving each fetched path. -/
abbrev Net := String → FetchOutcome

/-- The cache time-to-live, `this.cacheTimeout = 5 * 60 * 1000`. -/
def cacheTimeout : Nat := 5 * 60 * 1000

/-- What one `loadJSON` call produces: the resolved value or the thrown
message, the cache afterwards, and whether a network fetch was issued. -/
structure LoadJSONResult where
  result : Except String Json
  cache : Cache
  didFetch : Bool

/-- `loadJSON(path)` from `js/data-loader.js` (identical in both loader
revisions): return the cached value when present and younger than the TTL;
otherwise fetch, require a success status, parse, store under the exact
path string and return; any failure is rethrown with its message prefixed
`Failed to load data:`.  The ambient clock and network are the explicit
`now` and `net` arguments. -/
def loadJSON (cache : Cache) (net : String → FetchOutcome) (now : Nat)
    (path : String) : LoadJSONResult :=
  let hit := match List.lookup path cache with
             | some e => if now - e.timestamp < cacheTimeout then some e.data else none
             | none => none
  match hit with
  | some v => { result := .ok v, cache := cache, didFetch := false }
  | none =>
    match net path with
    | .ok body =>
      { result := .ok body
        cache := cacheSet cache path { data := body, timestamp := now }
        didFetch := true }
    | .notOk status =>
      { result := .error ("Failed to load data: HTTP error! status: " ++ toString status)
        cache := cache
        didFetch := true }
    | .fail msg =>
      { result := .error ("Failed to load data: " ++ msg)
        cache := cache
        didFetch := true }

/-- The flat consolidated `news-data.json` document: all news items under
one optional `items` array. -/
structure NewsDoc where
  items : Option (List NewsRenderer.NewsItem)

/-- What the flat-file `loadNews` resolves with. -/
structure NewsLoadResult where
  month : String
  items : List NewsRenderer.NewsItem
  count : Nat
  error : Option String

/-- `loadNews(month)` of the flat-file loader revision: ignores the month
for fetching, loads the single `news-data.json` (its call outcome is the
explicit `fetched` argument) and recovers to an error-annotated empty
result on failure. -/
def loadNewsFlat (fetched : Except String NewsDoc) (month : Option String) :
    NewsLoadResult :=
  match fetched with
  | .ok d =>
    { month := month.getD "unknown"
      items := d.items.getD []
      count := (d.items.getD []).length
      error := none }
  | .error e =>
    { month := month.getD "unknown", items := [], count := 0, error := some e }

/-- Number of days of a month, with the Gregorian leap rule (used to decide
which `YYYY-MM-DD` strings denote a valid date). -/
def daysInMonth (y m : Nat) : Nat :=
  if m = 2 then
    if (y % 4 = 0 && y % 100 != 0) || y % 400 = 0 then 29 else 28
  else if m = 4 || m = 6 || m = 9 || m = 11 then 30
  else 31

/-- The numeric value of a decimal digit character. -/
def digitVal (c : Char) : Nat := c.toNat - 48

/-- Models the ISO-date path of `new Date(string).valueOf()`: a valid
`YYYY-MM-DD` string maps to a key whose integer order agrees with the
chronological order of the denoted dates; anything else is `NaN` (`none`).
This stands in for the host JavaScript engine, which is not repository
code. -/
def jsDateValue (s : String) : Option Int :=
  match s.toList with
  | [y1, y2, y3, y4, '-', m1, m2, '-', d1, d2] =>
    if y1.isDigit && y2.isDigit && y3.isDigit && y4.isDigit &&
       m1.isDigit && m2.isDigit && d1.isDigit && d2.isDigit then
      let y := digitVal y1 * 1000 + digitVal y2 * 100 + digitVal y3 * 10 + digitVal y4
      let m := digitVal m1 * 10 + digitVal m2
      let d := digitVal d1 * 10 + digitVal d2
      if 1 ≤ m && m ≤ 12 && 1 ≤ d && d ≤ daysInMonth y m then
        some (y * 10000 + m * 100 + d)
      else none
    else none
  | _ => none

/-- The sort key the descending-date comparator
`(a, b) => new Date(b.publish_date) - new Date(a.publish_date)` orders by
(`NaN` collapsed to `0`, matching the comparator arithmetic only on
parseable dates). -/
def sortKey (item : NewsRenderer.NewsItem) : Int :=
  (jsDateValue item.publish_date).getD 0

/-- The default month window: the current calendar month and the two
preceding ones, each formatted `YYYY-MM` with a zero-padded month, exactly
as `new Date(y, m - i, 1)` for `i = 0, 1, 2` computes it.  `nowMonth0` is
the zero-based `getMonth()` value. -/
def defaultMonths (nowYear nowMonth0 : Nat) : List String :=
  (List.range 3).map (fun i =>
    let total := nowYear * 12 + nowMonth0 - i
    let y := total / 12
    let m1 := total % 12 + 1
    toString y ++ "-" ++ (if m1 < 10 then "0" ++ toString m1 else toString m1))

/-- What `loadAllNews` resolves with. -/
structure AllNewsResult where
  items : List NewsRenderer.NewsItem
  count : Nat
  errors : List String

/-- `loadAllNews(months)` of the flat-file loader revision
(`js/data-loader.js`, first revision): load everything once through
`loadNews`, default the month window when no `months` argument was given,
locally filter the fetched items by comparing `publish_date.substring(0,7)`
against the month list (skipped entirely for an empty list), and sort
descending by date with the engine's stable sort. -/
def loadAllNewsFlat (fetched : Except String NewsDoc)
    (monthsArg : Option (List String)) (nowYear nowMonth0 : Nat) : AllNewsResult :=
  let result := loadNewsFlat fetched none
  let months := monthsArg.getD (defaultMonths nowYear nowMonth0)
  let allItems :=
    if months.length > 0 then
      result.items.filter (fun item =>
        item.publish_date != "" && months.contains (item.publish_date.take 7))
    else result.items
  let sorted := allItems.mergeSort (fun a b => decide (sortKey b ≤ sortKey a))
  { items := sorted
    count := sorted.length
    errors := match result.error with | some e => [e] | none => [] }

end Loader

namespace AddNews

/-- One monthly news bucket document `{month, items}` as the add-news
script (`scripts/add-news.js`) reads and writes it. -/
structure Bucket where
  month : String
  items : List NewsRenderer.NewsItem
deriving DecidableEq

/-- The filesystem visible to the script, a map from file path to the
parsed bucket it holds (the script always writes well-formed JSON and
re-parses what it reads). -/
abbrev NewsFs := List (String × Bucket)

/-- `Map`-style association update for the filesystem: overwrite in place
or create the file. -/
def fsSet (fs : NewsFs) (p : String) (b : Bucket) : NewsFs :=
  match List.lookup p fs with
  | some _ => fs.map (fun kv => if kv.1 = p then (p, b) else kv)
  | none => fs ++ [(p, b)]

/-- The operator's eight prompt answers, in prompt order; an empty string
is a blank (just Enter) response. -/
structure Answers where
  title : String
  summary : String
  platform : String
  platformType : String
  sourceUrl : String
  publishDate : String
  image : String
  tagsInput : String

/-- `getTags()`: an all-whitespace answer yields the empty list, otherwise
split on commas, trim every part and drop the empty parts. -/
def getTags (tagsInput : String) : List String :=
  if jsTrim tagsInput = "" then []
  else ((tagsInput.splitOn ",").map jsTrim).filter (fun t => t.length > 0)

/-- `padStart(2, zero)` of a decimal numeral, as used on the random id
suffix. -/
def pad2 (n : Nat) : String :=
  let s := toString n
  if s.length < 2 then "0" ++ s else s

/-- `generateId(date)`: the publish date plus a two-digit zero-padded
random number (the ambient `Math.random` draw is the explicit `rand`
argument; the `timestamp` local of the source is computed and never
used). -/
def generateId (date : String) (rand : Nat) : String :=
  date ++ "-" ++ pad2 rand

/-- `getFilePath(date)`: the target bucket path, derived from the first
seven characters (`YYYY-MM`) of the publish date. -/
def getFilePath (date : String) : String × String :=
  let yearMonth := date.take 7
  ("data/news/" ++ yearMonth ++ ".json", yearMonth)

/-- `loadOrCreateFile`: parse the existing bucket file, or initialize a
fresh `{month, items: []}` bucket (directory creation is not observable in
this filesystem model). -/
def loadOrCreateFile (fs : NewsFs) (filePath yearMonth : String) : Bucket :=
  match List.lookup filePath fs with
  | some b => b
  | none => { month := yearMonth, items := [] }

/-- What one run of the script produces: the process exit status, the
filesystem afterwards, and the error lines printed to the console. -/
structure MainResult where
  exitCode : Nat
  fs : NewsFs
  errorsPrinted : List String
deriving DecidableEq

/-- `main()` of `scripts/add-news.js`: prompt for the fields in order,
abort with exit 1 (writing nothing) when title, summary, platform or
source URL is blank, default the platform type, publish date and image,
assemble the item, append it to the loaded-or-created monthly bucket,
write the bucket back and re-validate it (re-parsing what was just
serialized always succeeds in this model, so the happy path exits 0).
`today` is the default publish date string the script computes from the
clock. -/
def main (ans : Answers) (today : String) (rand : Nat) (fs : NewsFs) : MainResult :=
  if jsTrim ans.title = "" then
    { exitCode := 1, fs := fs, errorsPrinted := ["Error: Title is required."] }
  else if jsTrim ans.summary = "" then
    { exitCode := 1, fs := fs, errorsPrinted := ["Error: Summary is required."] }
  else if jsTrim ans.platform = "" then
    { exitCode := 1, fs := fs, errorsPrinted := ["Error: Platform is required."] }
  else
    let platformType := if ans.platformType = "" then "英文" else ans.platformType
    if jsTrim ans.sourceUrl = "" then
      { exitCode := 1, fs := fs, errorsPrinted := ["Error: Source URL is required."] }
    else
      let publishDate := if ans.publishDate = "" then today else ans.publishDate
      let image := if ans.image = "" then
          "https://images.unsplash.com/photo-1518770660439-4636190af475?w=800&q=80"
        else ans.image
      let tags := getTags ans.tagsInput
      let (filePath, yearMonth) := getFilePath publishDate
      let data := loadOrCreateFile fs filePath yearMonth
      let newItem : NewsRenderer.NewsItem :=
        { id := generateId publishDate rand
          title := ans.title
          summary := ans.summary
          platform := ans.platform
          platform_type := platformType
          source_url := ans.sourceUrl
          publish_date := publishDate
          image := image
          tags := some tags }
      let data := { data with items := data.items ++ [newItem] }
      { exitCode := 0, fs := fsSet fs filePath data, errorsPrinted := [] }

end AddNews

namespace Validator

/-- One structured validator error, one constructor per `addError` call
site of `scripts/validate-data.js` (the printed message of each site is a
fixed template over the constructor arguments; the `got:` payloads of the
month and platform-type messages are display-only and omitted).  The same
constructors serve the news and skills per-item loops, which share their
check logic; `index` is the item index inside its file. -/
inductive VErr where
  | invalidJson (file : String)
  | missingMonth (file : String)
  | badMonthFormat (file : String)
  | invalidItems (file : String)
  | missingField (file : String) (index : Nat) (field : String)
  | idNotString (file : String) (index : Nat)
  | invalidUrlField (file : String) (index : Nat) (field : String)
  | badDateFormat (file : String) (index : Nat)
  | badPlatformType (file : String) (index : Nat)
  | tagsNotArray (file : String) (index : Nat)
  | missingCategory (file : String)
  | missingIcon (file : String)
  | invalidSkills (file : String)
  | badStars (file : String) (index : Nat)
  | featuresNotArray (file : String) (index : Nat)
  | dupId (id : String) (file : String)
deriving DecidableEq

/-- One structured validator warning, one constructor per `addWarning`
call site. -/
inductive VWarn where
  | noFiles (dir : String)
  | emptyItems (file : String)
  | longTitle (file : String) (index : Nat)
  | longSummary (file : String) (index : Nat)
  | emptyTags (file : String) (index : Nat)
  | fileIconNotEmoji (file : String)
  | skillIconNotEmoji (file : String) (index : Nat)
  | emptySkills (file : String)
  | emptyFeatures (file : String) (index : Nat)
  | trailingComma (file : String)
deriving DecidableEq

/-- The accumulating validator state (`this.errors`, `this.warnings`,
`this.allIds`, `this.duplicateIds`); the id set is kept as its insertion
list, membership being all the source reads from it besides its size. -/
structure VState where
  errors : List VErr
  warnings : List VWarn
  allIds : List String
  duplicateIds : List (String × String)

/-- `addError`: push and print one error. -/
def addError (s : VState) (e : VErr) : VState :=
  { s with errors := s.errors ++ [e] }

/-- `addWarning`: push and print one warning. -/
def addWarning (s : VState) (w : VWarn) : VState :=
  { s with warnings := s.warnings ++ [w] }

/-- `Set.add` on the insertion-list model of `allIds`. -/
def addId (ids : List String) (id : String) : List String :=
  if ids.contains id then ids else ids ++ [id]

/-- A singleton error list under a condition. -/
def errIf (c : Bool) (e : VErr) : List VErr := if c then [e] else []

/-- A singleton warning list under a condition. -/
def warnIf (c : Bool) (w : VWarn) : List VWarn := if c then [w] else []

/-- JavaScript `String.prototype.length`: the UTF-16 code unit count. -/
def utf16Len (s : String) : Nat :=
  s.toList.foldl (fun n c => n + (if c.toNat ≥ 65536 then 2 else 1)) 0

/-- String prefix test, computed structurally over the character lists
(`String.startsWith` itself is kernel-opaque). -/
def strStartsWith (s p : String) : Bool :=
  p.toList.isPrefixOf s.toList

/-- `isValidUrl(url)` of the validator: `false` for a non-string, else
whether the platform `new URL` constructor accepts it with an `http:` or
`https:` protocol.  The WHATWG parser is not repository code; it is
modelled as: an `http://` or `https://` prefix followed by a nonempty
remainder. -/
def isValidUrl (j : Json) : Bool :=
  match j with
  | .str s =>
    (strStartsWith s "http://" && 7 < s.length) ||
    (strStartsWith s "https://" && 8 < s.length)
  | _ => false

/-- The `/^\d{4}-\d{2}$/` month-format test. -/
def matchMonth (s : String) : Bool :=
  match s.toList with
  | [y1, y2, y3, y4, '-', m1, m2] =>
    y1.isDigit && y2.isDigit && y3.isDigit && y4.isDigit && m1.isDigit && m2.isDigit
  | _ => false

/-- The `/^\d{4}-\d{2}-\d{2}$/` date-format test. -/
def matchDate (s : String) : Bool :=
  match s.toList with
  | [y1, y2, y3, y4, '-', m1, m2, '-', d1, d2] =>
    y1.isDigit && y2.isDigit && y3.isDigit && y4.isDigit &&
    m1.isDigit && m2.isDigit && d1.isDigit && d2.isDigit
  | _ => false

/-- The `/^\d+[+]?$/` star-count format test. -/
def matchStars (s : String) : Bool :=
  match s.toList.reverse with
  | [] => false
  | last :: front =>
    if last = '+' then front.length > 0 && front.all Char.isDigit
    else (last :: front).all Char.isDigit

/-- Coercion of a scalar JSON value to the string a JavaScript regex
`.test` call would receive; arrays and objects (whose coercions the data
never exercises) are mapped to a sentinel that matches none of the
validator patterns. -/
def jsRegexInput (j : Json) : String :=
  match j with
  | .str s => s
  | .num n => toString n
  | .bool b => if b then "true" else "false"
  | .null => "null"
  | .arr _ => "object object"
  | .obj _ => "object object"

/-- `.test` of the month regex against a field value. -/
def testMonth (j : Json) : Bool := matchMonth (jsRegexInput j)

/-- `.test` of the date regex against a field value. -/
def testDate (j : Json) : Bool := matchDate (jsRegexInput j)

/-- `.test` of the stars regex against a field value. -/
def testStars (j : Json) : Bool := matchStars (jsRegexInput j)

/-- Membership of a field value in `[中文, 英文]` under strict equality
(only those exact strings qualify). -/
def isPlatformType (j : Json) : Bool :=
  match j with
  | .str s => s = "中文" || s = "英文"
  | _ => false

/-- First-character membership in the regex engine Unicode `\p{Emoji}`
class, modelled by the main emoji blocks; the source itself treats this
only as a warning-level heuristic. -/
def emojiFirst (s : String) : Bool :=
  match s.toList with
  | [] => false
  | c :: _ =>
    (0x1F000 ≤ c.toNat && c.toNat ≤ 0x1FAFF) ||
    (0x2600 ≤ c.toNat && c.toNat ≤ 0x27BF) ||
    (0x2B00 ≤ c.toNat && c.toNat ≤ 0x2BFF) ||
    c.toNat = 0x23 || c.toNat = 0x2A || (0x30 ≤ c.toNat && c.toNat ≤ 0x39)

/-- The required news-item fields, in check order. -/
def newsRequiredFields : List String :=
  ["id", "title", "summary", "platform", "platform_type", "source_url",
   "publish_date", "image", "tags"]

/-- The required skill fields, in check order. -/
def skillsRequiredFields : List String :=
  ["id", "name", "title", "description", "author", "github_url", "install_cmd",
   "category", "features", "use_case", "stars", "image", "tags", "icon"]

/-- Strict equality of a field value with the literal string sentinel
`N/A`. -/
def isNAStr (j : Json) : Bool :=
  match j with
  | .str s => s = "N/A"
  | _ => false

/-- The skills-loop missing-field test
(`undefined`, `null` or the empty string). -/
def missingSkillVal (j : Json) : Bool :=
  match j with
  | .null => true
  | .str s => s = ""
  | _ => false

/-- A string id worth tracking for uniqueness: the per-item id handling
runs only for a truthy id, and only records string ids (a truthy
non-string id draws an error instead). -/
def trackableId (item : Json) : List String :=
  match item.get "id" with
  | .str s => if s != "" then [s] else []
  | _ => []

/-- The errors one news item contributes, in `addError` order. -/
def newsItemErrors (file : String) (index : Nat) (item : Json) : List VErr :=
  (newsRequiredFields.filterMap (fun f =>
    if (item.get f).truthy then none else some (.missingField file index f)))
  ++ (match item.get "id" with
      | .str _ => []
      | j => errIf j.truthy (.idNotString file index))
  ++ errIf ((item.get "source_url").truthy && !isValidUrl (item.get "source_url"))
       (.invalidUrlField file index "source_url")
  ++ errIf ((item.get "image").truthy && !isValidUrl (item.get "image"))
       (.invalidUrlField file index "image")
  ++ errIf ((item.get "publish_date").truthy && !testDate (item.get "publish_date"))
       (.badDateFormat file index)
  ++ errIf ((item.get "platform_type").truthy && !isPlatformType (item.get "platform_type"))
       (.badPlatformType file index)
  ++ (match item.get "tags" with
      | .arr _ => []
      | j => errIf j.truthy (.tagsNotArray file index))

/-- The warnings one news item contributes, in `addWarning` order. -/
def newsItemWarnings (file : String) (index : Nat) (item : Json) : List VWarn :=
  (match item.get "title" with
   | .str s => warnIf (200 < utf16Len s) (.longTitle file index)
   | _ => [])
  ++ (match item.get "summary" with
      | .str s => warnIf (500 < utf16Len s) (.longSummary file index)
      | _ => [])
  ++ (match item.get "tags" with
      | .arr xs => warnIf (xs.length = 0) (.emptyTags file index)
      | _ => [])

/-- The errors the root of one parsed news file contributes before and
around its item loop (`validateNewsFile`). -/
def newsFileErrors (file : String) (data : Json) : List VErr :=
  (if !(data.get "month").truthy then [.missingMonth file]
   else errIf (!testMonth (data.get "month")) (.badMonthFormat file))
  ++ (if !(data.get "items").isArr then [.invalidItems file]
      else ((data.get "items").asArr.enum.flatMap (fun p =>
        newsItemErrors file p.1 p.2)))

/-- The warnings one parsed news file contributes. -/
def newsFileWarnings (file : String) (data : Json) : List VWarn :=
  if !(data.get "items").isArr then []
  else
    warnIf ((data.get "items").asArr.length = 0) (.emptyItems file)
    ++ ((data.get "items").asArr.enum.flatMap (fun p =>
      newsItemWarnings file p.1 p.2))

/-- The ids one parsed news file feeds into the uniqueness tracker, in
processing order. -/
def newsFileIds (data : Json) : List String :=
  if !(data.get "items").isArr then []
  else (data.get "items").asArr.flatMap trackableId

/-- The errors one skill item contributes, in `addError` order. -/
def skillItemErrors (file : String) (index : Nat) (skill : Json) : List VErr :=
  (skillsRequiredFields.filterMap (fun f =>
    if missingSkillVal (skill.get f) then some (.missingField file index f) else none))
  ++ (match skill.get "id" with
      | .str _ => []
      | j => errIf j.truthy (.idNotString file index))
  ++ errIf ((skill.get "github_url").truthy && !isValidUrl (skill.get "github_url"))
       (.invalidUrlField file index "github_url")
  ++ errIf ((skill.get "image").truthy && !isValidUrl (skill.get "image"))
       (.invalidUrlField file index "image")
  ++ errIf ((skill.get "stars").truthy && !isNAStr (skill.get "stars") &&
            !testStars (skill.get "stars"))
       (.badStars file index)
  ++ (match skill.get "features" with
      | .arr _ => []
      | j => errIf j.truthy (.featuresNotArray file index))
  ++ (match skill.get "tags" with
      | .arr _ => []
      | j => errIf j.truthy (.tagsNotArray file index))

/-- The warnings one skill item contributes, in `addWarning` order. -/
def skillItemWarnings (file : String) (index : Nat) (skill : Json) : List VWarn :=
  (match skill.get "features" with
   | .arr xs => warnIf (xs.length = 0) (.emptyFeatures file index)
   | _ => [])
  ++ (match skill.get "tags" with
      | .arr xs => warnIf (xs.length = 0) (.emptyTags file index)
      | _ => [])
  ++ (let icon := skill.get "icon"
      warnIf (icon.truthy &&
        (match icon with
         | .str s => !(utf16Len s = 2)
         | _ => true))
        (.skillIconNotEmoji file index))

/-- The errors the root of one parsed skills file contributes
(`validateSkillsFile`). -/
def skillsFileErrors (file : String) (data : Json) : List VErr :=
  errIf (!(data.get "category").truthy) (.missingCategory file)
  ++ errIf (!(data.get "icon").truthy) (.missingIcon file)
  ++ (if !(data.get "skills").isArr then [.invalidSkills file]
      else ((data.get "skills").asArr.enum.flatMap (fun p =>
        skillItemErrors file p.1 p.2)))

/-- The warnings one parsed skills file contributes, including the
root-icon emoji heuristic. -/
def skillsFileWarnings (file : String) (data : Json) : List VWarn :=
  (if (data.get "icon").truthy then
    warnIf
      (match data.get "icon" with
       | .str s => !(utf16Len s = 2) || !emojiFirst s
       | _ => true)
      (.fileIconNotEmoji file)
   else [])
  ++ (if !(data.get "skills").isArr then []
      else
        warnIf ((data.get "skills").asArr.length = 0) (.emptySkills file)
        ++ ((data.get "skills").asArr.enum.flatMap (fun p =>
          skillItemWarnings file p.1 p.2)))

/-- The ids one parsed skills file feeds into the uniqueness tracker. -/
def skillsFileIds (data : Json) : List String :=
  if !(data.get "skills").isArr then []
  else (data.get "skills").asArr.flatMap trackableId

/-- The shared per-item id bookkeeping: a repeat of an already-seen id is
pushed onto `duplicateIds` tagged with the file currently being checked,
and the id is added to the global set. -/
def trackIds (file : String) (ids : List String) (s : VState) : VState :=
  ids.foldl (fun s id =>
    let s := if s.allIds.contains id then
        { s with duplicateIds := s.duplicateIds ++ [(id, file)] }
      else s
    { s with allIds := addId s.allIds id }) s

/-- Which directory a file came from, selecting the per-file checks. -/
inductive VKind where
  | news
  | skills

/-- One JSON file as the validator sees it: its base name, its parsed
content (`none` when `JSON.parse` throws) and whether the raw trimmed text
ends in a comma. -/
structure VFile where
  name : String
  parsed : Option Json
  trailingComma : Bool

/-- `validateNewsFile` / `validateSkillsFile`: record the file's errors and
warnings and feed its ids through the uniqueness tracker. -/
def validateTyped (kind : VKind) (file : String) (data : Json) (s : VState) : VState :=
  match kind with
  | .news =>
    trackIds file (newsFileIds data)
      { s with errors := s.errors ++ newsFileErrors file data
               warnings := s.warnings ++ newsFileWarnings file data }
  | .skills =>
    trackIds file (skillsFileIds data)
      { s with errors := s.errors ++ skillsFileErrors file data
               warnings := s.warnings ++ skillsFileWarnings file data }

/-- `validateFile`: a parse failure is an error that ends the file's
processing; otherwise the typed checks run and the trailing-comma
heuristic fires last. -/
def validateFile (kind : VKind) (s : VState) (f : VFile) : VState :=
  match f.parsed with
  | none => addError s (.invalidJson f.name)
  | some data =>
    let s := validateTyped kind f.name data s
    if f.trailingComma then addWarning s (.trailingComma f.name) else s

/-- `validateDirectory`: warn when a directory holds no JSON files, else
validate each file in listing order (the directory itself is assumed to
exist; the filesystem is abstracted into the file list). -/
def validateDirectory (kind : VKind) (dir : String) (s : VState)
    (files : List VFile) : VState :=
  if files.isEmpty then addWarning s (.noFiles dir)
  else files.foldl (validateFile kind) s

/-- `checkDuplicateIds`: turn every recorded duplicate occurrence into one
error naming the id and the file it was recorded against. -/
def checkDuplicateIds (s : VState) : VState :=
  s.duplicateIds.foldl (fun s p => addError s (.dupId p.1 p.2)) s

/-- The fresh validator state of the constructor. -/
def initialState : VState :=
  { errors := [], warnings := [], allIds := [], duplicateIds := [] }

/-- `validate()`: news directory, skills directory, duplicate-id report
(the summary only prints). -/
def validate (newsFiles skillsFiles : List VFile) : VState :=
  let s := validateDirectory .news "data/news" initialState newsFiles
  let s := validateDirectory .skills "data/skills" s skillsFiles
  checkDuplicateIds s

/-- The return value of `validate()`, which the CLI entry point passes to
`process.exit`. -/
def exitCode (s : VState) : Nat :=
  if s.errors.length > 0 then 1 else 0

/-- One whole CLI run: the final state and the process exit status. -/
def runValidator (newsFiles skillsFiles : List VFile) : VState × Nat :=
  let s := validate newsFiles skillsFiles
  (s, exitCode s)

/-- The ids one parsed file of the given kind feeds into the tracker. -/
def fileIdsOf (kind : VKind) (data : Json) : List String :=
  match kind with
  | .news => newsFileIds data
  | .skills => skillsFileIds data

/-- The (id, file) pairs one file feeds through the uniqueness tracker: a
file that failed to parse contributes nothing. -/
def fileIdPairs (kind : VKind) (f : VFile) : List (String × String) :=
  match f.parsed with
  | some d => (fileIdsOf kind d).map (fun id => (id, f.name))
  | none => []

/-- All (id, file) pairs a run feeds through the uniqueness tracker, in
processing order. -/
def runIdPairs (newsFiles skillsFiles : List VFile) : List (String × String) :=
  newsFiles.flatMap (fileIdPairs .news) ++ skillsFiles.flatMap (fileIdPairs .skills)

/-- The per-pair step of the uniqueness tracker, on the (id set, duplicate
list) component of the state alone. -/
def trackPure (acc : List String × List (String × String)) (p : String × String) :
    List String × List (String × String) :=
  let dups := if acc.1.contains p.1 then acc.2 ++ [p] else acc.2
  (addId acc.1 p.1, dups)

/-- The two news files of the duplicate-id scenario: each parses cleanly,
each holds one otherwise fully valid item, and both items carry the id
`dup-1`. -/
def dupNewsFileA : VFile :=
  { name := "a.json"
    parsed := some (.obj
      [("month", .str "2026-01"),
       ("items", .arr
         [.obj [("id", .str "dup-1"), ("title", .str "T1"),
                ("summary", .str "S1"), ("platform", .str "GitHub"),
                ("platform_type", .str "英文"),
                ("source_url", .str "https://a.example/x"),
                ("publish_date", .str "2026-01-05"),
                ("image", .str "https://a.example/i.png"),
                ("tags", .arr [.str "发布"])]])])
    trailingComma := false }

/-- The second file of the duplicate-id scenario, identical in shape but
named `b.json`. -/
def dupNewsFileB : VFile :=
  { name := "b.json"
    parsed := some (.obj
      [("month", .str "2026-01"),
       ("items", .arr
         [.obj [("id", .str "dup-1"), ("title", .str "T2"),
                ("summary", .str "S2"), ("platform", .str "GitHub"),
                ("platform_type", .str "英文"),
                ("source_url", .str "https://b.example/x"),
                ("publish_date", .str "2026-01-06"),
                ("image", .str "https://b.example/i.png"),
                ("tags", .arr [.str "发布"])]])])
    trailingComma := false }

/-- Recognizer for a duplicate-id error naming a given id. -/
def isDupErrNamed (x : String) (e : VErr) : Bool :=
  match e with
  | .dupId id _ => id == x
  | _ => false

/-- Recognizer for any duplicate-id error. -/
def isDupErr (e : VErr) : Bool :=
  match e with
  | .dupId _ _ => true
  | _ => false

end Validator

namespace Loader

/-- `x || fallback` on JSON values. -/
def jsOr (j fallback : Json) : Json := if j.truthy then j else fallback

/-- `x?.length || 0`: array length, UTF-16 string length, and `0` for every
value without a `length` property. -/
def jsLen (j : Json) : Nat :=
  match j with
  | .arr xs => xs.length
  | .str s => Validator.utf16Len s
  | _ => 0

/-- The hardcoded fallback site descriptor, written identically by the
`loadConfig` recovery branch and by the flat `loadAll` success branch. -/
def fallbackSiteConfig : Json :=
  .obj [("site", .obj
    [("title", .str "Moltbot - AI Assistant Hub"),
     ("description", .str "OpenClaw/Moltbot Latest News and Skills"),
     ("version", .str "2.0.0")])]

/-- The snapshot the flat-file `loadAll` resolves with (both its success
shape and its fatal-flagged recovery shape). -/
structure LoadAllResult where
  config : Json
  categories : Json
  newsItems : Json
  newsCount : Nat
  newsErrors : List String
  skillsSkills : Json
  skillsCategories : Json
  skillsCount : Nat
  skillsErrors : List String
  hasFatalError : Bool
  error : Option String

/-- The recovered snapshot of the flat `loadAll` catch branch: empty
sub-objects, the message in both error lists, and the fatal flag. -/
def recoveredFlat (msg : String) : LoadAllResult :=
  { config := .obj []
    categories := .obj []
    newsItems := .arr []
    newsCount := 0
    newsErrors := [msg]
    skillsSkills := .arr []
    skillsCategories := .obj []
    skillsCount := 0
    skillsErrors := [msg]
    hasFatalError := true
    error := some msg }

/-- `loadAll(options)` of the flat-file loader revision: fetch the two
root-level consolidated files directly (`Promise.all`, modelled with the
news fetch ordered first and taking rejection priority), and either build
the success snapshot with the hardcoded config, or catch the single
failure into a fatal-flagged recovery snapshot. -/
def loadAllFlat (cache : Cache) (net : Net) (now : Nat) : LoadAllResult × Cache :=
  let r1 := loadJSON cache net now "news-data.json"
  let r2 := loadJSON r1.cache net now "skills-data.json"
  match r1.result, r2.result with
  | .ok newsData, .ok skillsData =>
    ({ config := fallbackSiteConfig
       categories := .obj []
       newsItems := jsOr (newsData.get "items") (.arr [])
       newsCount := jsLen (newsData.get "items")
       newsErrors := []
       skillsSkills := jsOr (skillsData.get "skills") (.arr [])
       skillsCategories := .obj []
       skillsCount := jsLen (skillsData.get "skills")
       skillsErrors := []
       hasFatalError := false
       error := none }, r2.cache)
  | .error e, _ => (recoveredFlat e, r2.cache)
  | .ok _, .error e => (recoveredFlat e, r2.cache)

/-- `YYYY-MM` formatting with a zero-padded month number. -/
def formatMonth (y m1 : Nat) : String :=
  toString y ++ "-" ++ (if m1 < 10 then "0" ++ toString m1 else toString m1)

/-- The current calendar month string the per-bucket `loadNews` defaults
to (`nowMonth0` is the zero-based `getMonth()` value). -/
def currentMonth (nowYear nowMonth0 : Nat) : String :=
  formatMonth nowYear (nowMonth0 + 1)

/-- What the per-bucket `loadNews` resolves with. -/
structure News2Result where
  month : Json
  items : List Json
  count : Nat
  error : Option String

/-- `loadNews(month)` of the per-month-bucket loader revision: default the
month from the clock, fetch `/data/news/<month>.json`, and recover to an
error-annotated empty result on failure (the success branch reports the
`month` field of the fetched document). -/
def loadNews2 (cache : Cache) (net : Net) (now : Nat) (monthArg : Option String)
    (nowYear nowMonth0 : Nat) : News2Result × Cache :=
  let month := match monthArg with
               | some m => if m = "" then currentMonth nowYear nowMonth0 else m
               | none => currentMonth nowYear nowMonth0
  let r := loadJSON cache net now ("/data/news/" ++ month ++ ".json")
  match r.result with
  | .ok data =>
    ({ month := data.get "month"
       items := (data.get "items").asArr
       count := (data.get "items").asArr.length
       error := none }, r.cache)
  | .error e =>
    ({ month := .str month, items := [], count := 0, error := some e }, r.cache)

/-- The descending-date sort key of a raw JSON news item. -/
def jsonDateKey (j : Json) : Int :=
  match j.get "publish_date" with
  | .str s => (jsDateValue s).getD 0
  | _ => 0

/-- What the per-bucket `loadAllNews` resolves with (each error names its
month). -/
structure AllNews2Result where
  items : List Json
  count : Nat
  errors : List (String × String)

/-- `loadAllNews(months)` of the per-month-bucket loader revision: default
the three-month window, settle one `loadNews` per month (none can reject,
so every settled entry is fulfilled), merge the items of the months that
produced any, collect `(month, message)` errors for the months that
recovered with one and produced no items, and sort descending by date. -/
def loadAllNews2 (cache : Cache) (net : Net) (now : Nat)
    (monthsArg : Option (List String)) (nowYear nowMonth0 : Nat) :
    AllNews2Result × Cache :=
  let months := monthsArg.getD (defaultMonths nowYear nowMonth0)
  let step := months.foldl (fun (acc : List News2Result × Cache) m =>
      let (r, c) := loadNews2 acc.2 net now (some m) nowYear nowMonth0
      (acc.1 ++ [r], c)) ([], cache)
  let pairs := months.zip step.1
  let allItems := pairs.flatMap (fun p =>
    if p.2.items.length > 0 then p.2.items else [])
  let errors := pairs.filterMap (fun p =>
    if p.2.items.length > 0 then none
    else match p.2.error with
         | some e => some (p.1, e)
         | none => none)
  let sorted := allItems.mergeSort (fun a b => decide (jsonDateKey b ≤ jsonDateKey a))
  ({ items := sorted, count := sorted.length, errors := errors }, step.2)

/-- What the per-bucket `loadConfig` resolves with. -/
structure ConfigResult where
  config : Json
  categories : Json
  error : Option String

/-- `loadConfig()` of the per-bucket loader revision: fetch
`/data/config.json` and `/data/categories.json`, recovering to the
hardcoded fallback descriptor plus an empty category map when either
fails. -/
def loadConfig2 (cache : Cache) (net : Net) (now : Nat) : ConfigResult × Cache :=
  let r1 := loadJSON cache net now "/data/config.json"
  let r2 := loadJSON r1.cache net now "/data/categories.json"
  match r1.result, r2.result with
  | .ok c, .ok cats => ({ config := c, categories := cats, error := none }, r2.cache)
  | .error e, _ =>
    ({ config := fallbackSiteConfig, categories := .obj [], error := some e }, r2.cache)
  | .ok _, .error e =>
    ({ config := fallbackSiteConfig, categories := .obj [], error := some e }, r2.cache)

/-- What the per-bucket `loadSkillsCategory` resolves with. -/
structure SkillsCat2Result where
  category : Json
  icon : Json
  skills : List Json
  count : Nat
  error : Option String

/-- `loadSkillsCategory(category)` of the per-bucket loader revision:
fetch `/data/skills/<category>.json`, recovering to an error-annotated
empty list on failure. -/
def loadSkillsCategory2 (cache : Cache) (net : Net) (now : Nat) (cat : String) :
    SkillsCat2Result × Cache :=
  let r := loadJSON cache net now ("/data/skills/" ++ cat ++ ".json")
  match r.result with
  | .ok d =>
    ({ category := d.get "category"
       icon := d.get "icon"
       skills := (d.get "skills").asArr
       count := (d.get "skills").asArr.length
       error := none }, r.cache)
  | .error e =>
    ({ category := .str cat, icon := .null, skills := [], count := 0,
       error := some e }, r.cache)

/-- Object spread update `{...j, k: v}`: overwrite the key in place or
append it (a non-object spread target never occurs on the data shapes the
loader consumes). -/
def Json.setField (j : Json) (k : String) (v : Json) : Json :=
  match j with
  | .obj fs =>
    if (fs.lookup k).isSome then
      .obj (fs.map (fun kv => if kv.1 = k then (k, v) else kv))
    else .obj (fs ++ [(k, v)])
  | _ => .obj [(k, v)]

/-- JavaScript string coercion of an interpolated or key-position value. -/
def jsToStr (j : Json) : String :=
  match j with
  | .str s => s
  | .num n => toString n
  | .bool b => if b then "true" else "false"
  | .null => "undefined"
  | .arr _ => ""
  | .obj _ => "object Object"

/-- What the per-bucket `loadAllSkills` resolves with. -/
structure AllSkills2Result where
  skills : List Json
  categories : List (String × Json)
  count : Nat
  errors : List (String × String)

/-- `loadAllSkills()` of the per-bucket loader revision: read the category
list from the config, settle one `loadSkillsCategory` per category (none
can reject, so every settled entry is fulfilled and the rejection branch
that would collect errors is unreachable — a category that recovered from
a failed fetch contributes an empty skill list and a zero count), record
per-category metadata, and annotate every skill with its category display
name and id. -/
def loadAllSkills2 (cache : Cache) (net : Net) (now : Nat) :
    AllSkills2Result × Cache :=
  let (config, c1) := loadConfig2 cache net now
  let categoryConfigs := ((config.config.get "skills").get "categories").asArr
  let step := categoryConfigs.foldl
    (fun (acc : (List Json × List (String × Json)) × Cache) cat =>
      let catId := jsToStr (cat.get "id")
      let (r, c) := loadSkillsCategory2 acc.2 net now catId
      let catData := acc.1.2 ++
        [(catId, Json.obj [("name", cat.get "name"), ("icon", cat.get "icon"),
                           ("count", .num r.count)])]
      let withCat := r.skills.map (fun s =>
        Json.setField (Json.setField s "category" (cat.get "name"))
          "categoryId" (cat.get "id"))
      ((acc.1.1 ++ withCat, catData), c)) (([], []), c1)
  ({ skills := step.1.1
     categories := step.1.2
     count := step.1.1.length
     errors := [] }, step.2)

/-- The snapshot the per-bucket `loadAll` resolves with.  It has no
`hasFatalError` field in either branch of the source; `error` is set only
by its catch branch. -/
structure LoadAll2Result where
  config : Json
  categories : Json
  newsItems : List Json
  newsCount : Nat
  newsErrors : List (String × String)
  skillsSkills : List Json
  skillsCategories : List (String × Json)
  skillsCount : Nat
  skillsErrors : List (String × String)
  error : Option String

/-- `loadAll(options)` of the per-bucket loader revision: run the three
aggregate loaders (each of which recovers internally and always resolves),
so the outer catch that would set `error` has no reachable throw site and
the best-effort partial snapshot with per-source error lists is always
returned. -/
def loadAll2 (cache : Cache) (net : Net) (now : Nat)
    (newsMonths : Option (List String)) (nowYear nowMonth0 : Nat) :
    LoadAll2Result × Cache :=
  let (config, c1) := loadConfig2 cache net now
  let (news, c2) := loadAllNews2 c1 net now newsMonths nowYear nowMonth0
  let (skills, c3) := loadAllSkills2 c2 net now
  ({ config := config.config
     categories := config.categories
     newsItems := news.items
     newsCount := news.count
     newsErrors := news.errors
     skillsSkills := skills.skills
     skillsCategories := skills.categories
     skillsCount := skills.count
     skillsErrors := skills.errors
     error := none }, c3)

end Loader

namespace AppDataM

/-- The transformed snapshot the app-data facade stores
(`_transformData` copies these fields and drops the raw snapshot's
`hasFatalError` flag and top-level `error`). -/
structure AppSnapshot where
  config : Json
  categories : Json
  newsItems : Json
  newsCount : Nat
  newsErrors : List String
  skillsSkills : Json
  skillsCategories : Json
  skillsCount : Nat
  skillsErrors : List String

/-- `_transformData(raw)`. -/
def transformData (raw : Loader.LoadAllResult) : AppSnapshot :=
  { config := raw.config
    categories := raw.categories
    newsItems := raw.newsItems
    newsCount := raw.newsCount
    newsErrors := raw.newsErrors
    skillsSkills := raw.skillsSkills
    skillsCategories := raw.skillsCategories
    skillsCount := raw.skillsCount
    skillsErrors := raw.skillsErrors }

/-- A lifecycle event broadcast to subscribers. -/
inductive AppEvent where
  | loaded
  | error
deriving DecidableEq

/-- The app-data singleton state between calls (`this.data`; the in-flight
promise only coalesces concurrent callers and is always cleared before a
call returns, so the completed-call state needs only the snapshot). -/
structure AppState where
  data : Option AppSnapshot

/-- Everything one completed `load()` call did: the resolved snapshot, the
state and loader cache afterwards, the events broadcast during the call
and whether the underlying `dataLoader.loadAll` was invoked. -/
structure LoadOutcome where
  returned : AppSnapshot
  state : AppState
  cache : Loader.Cache
  events : List AppEvent
  loaderCalled : Bool

/-- `AppData.load(options)`, paired with the flat-file `loadAll` the
deployed page uses: return the stored snapshot immediately when present;
otherwise run `loadAll`, transform and store its result and notify the
`loaded` event.  The catch branch that would notify `error` runs only when
`loadAll` rejects, and `loadAllFlat` always resolves, so that branch has no
reachable throw site. -/
def load (st : AppState) (cache : Loader.Cache) (net : Loader.Net) (now : Nat) :
    LoadOutcome :=
  match st.data with
  | some d =>
    { returned := d, state := st, cache := cache, events := [], loaderCalled := false }
  | none =>
    let (raw, c) := Loader.loadAllFlat cache net now
    let d := transformData raw
    { returned := d
      state := { data := some d }
      cache := c
      events := [.loaded]
      loaderCalled := true }

/-- `AppData.refresh(options)`: clear the loader cache, discard the stored
snapshot and re-run `load`. -/
def refresh (_st : AppState) (_cache : Loader.Cache) (net : Loader.Net)
    (now : Nat) : LoadOutcome :=
  load { data := none } [] net now

end AppDataM

/-!  Theorems settling the claims, with their supporting lemmas.  -/

/-- C1: for every news item, the `news` filter passes it exactly when its
platform type contains 英文 and its tags include 发布; every filter outside
the four named ones (including `all`) passes every item, fail-open. -/
theorem claim_C1_matchesNewsFilter (item : NewsRenderer.NewsItem) (filter : String) :
    (NewsRenderer.matchesNewsFilter item "news" = true ↔
      strIncludes item.platform_type "英文" = true ∧
      (item.tags.getD []).contains "发布" = true) ∧
    (filter ∉ (["news", "showcase", "code", "screenshot"] : List String) →
      NewsRenderer.matchesNewsFilter item filter = true) := by
  constructor
  · simp [NewsRenderer.matchesNewsFilter]
  · intro hf
    simp only [List.mem_cons, List.not_mem_nil, or_false, not_or] at hf
    obtain ⟨h1, h2, h3, h4⟩ := hf
    simp [NewsRenderer.matchesNewsFilter, h1, h2, h3, h4]

/-- C1 witness: a concrete 英文-platform item tagged 发布 passes the `news`
filter, and an unknown filter passes it as well. -/
theorem claim_C1_witness :
    ("weird" ∉ (["news", "showcase", "code", "screenshot"] : List String)) ∧
    NewsRenderer.matchesNewsFilter
      ⟨"n1", "t", "s", "GitHub", "英文", "https://x", "2026-01-01", "", some ["发布"]⟩
      "weird" = true ∧
    NewsRenderer.matchesNewsFilter
      ⟨"n1", "t", "s", "GitHub", "英文", "https://x", "2026-01-01", "", some ["发布"]⟩
      "news" = true :=
  ⟨by decide,
   (claim_C1_matchesNewsFilter
      ⟨"n1", "t", "s", "GitHub", "英文", "https://x", "2026-01-01", "", some ["发布"]⟩
      "weird").2 (by decide),
   (claim_C1_matchesNewsFilter
      ⟨"n1", "t", "s", "GitHub", "英文", "https://x", "2026-01-01", "", some ["发布"]⟩
      "weird").1.mpr ⟨by decide, by decide⟩⟩

/-- C2: the skills renderer passes every record for the `all` filter; any
other filter renders exactly the records whose `category` display name
equals the filter; when no record's `category` equals the filter (for
instance when the caller passes a category identifier), zero cards are
rendered and the empty-state panel is shown. -/
theorem claim_C2_renderSkills (items : List SkillsRenderer.Skill) (filter : String) :
    (SkillsRenderer.renderSkills "all" items).cards
        = items.map SkillsRenderer.generateSkillCard ∧
    (filter ≠ "all" →
      (SkillsRenderer.renderSkills filter items).cards
        = (items.filter (fun s => s.category = filter)).map
            SkillsRenderer.generateSkillCard) ∧
    (filter ≠ "all" → (∀ s ∈ items, s.category ≠ filter) →
      (SkillsRenderer.renderSkills filter items).cards = [] ∧
      (SkillsRenderer.renderSkills filter items).emptyState = true) := by
  refine ⟨by simp [SkillsRenderer.renderSkills], fun hne => ?_, fun hne hnone => ?_⟩
  · simp [SkillsRenderer.renderSkills, hne]
  · have hfil : items.filter (fun s => decide (s.category = filter)) = [] := by
      rw [List.filter_eq_nil_iff]
      intro a ha
      simpa using hnone a ha
    constructor
    · simp [SkillsRenderer.renderSkills, hne, hfil]
    · simp [SkillsRenderer.renderSkills, hne, hfil]

/-- C2 witness: filtering two concrete records by the category identifier
`productivity` (their display names are 生产力 and AI/LLM) renders zero
cards and the empty state, while filtering by the display name keeps
exactly the matching record. -/
theorem claim_C2_witness :
    ("productivity" ≠ "all") ∧
    (∀ s ∈ ([⟨"s1", "a", "A", "d", "au", "https://g", "molt install a", "生产力",
              some "productivity", some [], "u", "N/A", "🧰"⟩,
             ⟨"s2", "b", "B", "d", "au", "https://g", "molt install b", "AI/LLM",
              some "ai-llm", some [], "u", "N/A", "🤖"⟩] :
            List SkillsRenderer.Skill), s.category ≠ "productivity") ∧
    (SkillsRenderer.renderSkills "productivity"
      [⟨"s1", "a", "A", "d", "au", "https://g", "molt install a", "生产力",
        some "productivity", some [], "u", "N/A", "🧰"⟩,
       ⟨"s2", "b", "B", "d", "au", "https://g", "molt install b", "AI/LLM",
        some "ai-llm", some [], "u", "N/A", "🤖"⟩]).cards = [] ∧
    (SkillsRenderer.renderSkills "productivity"
      [⟨"s1", "a", "A", "d", "au", "https://g", "molt install a", "生产力",
        some "productivity", some [], "u", "N/A", "🧰"⟩,
       ⟨"s2", "b", "B", "d", "au", "https://g", "molt install b", "AI/LLM",
        some "ai-llm", some [], "u", "N/A", "🤖"⟩]).emptyState = true :=
  ⟨by decide, by decide,
   (claim_C2_renderSkills _ "productivity").2.2 (by decide) (by decide)⟩

/-- C8 counterexample: when the clipboard capability is absent, `copyText`
shows the red failure indicator and returns `false`, but schedules no
delayed reset, so the button never reverts to its original content — the
claim asserts it still auto-reverts after the timeout. -/
theorem claim_C8_counterexample :
    (CopyUtil.copyText false true (some ⟨"📋 复制", "", none⟩)).ret = false ∧
    (CopyUtil.copyText false true (some ⟨"📋 复制", "", none⟩)).resetScheduled = false ∧
    CopyUtil.buttonAfterTimeout (CopyUtil.copyText false true (some ⟨"📋 复制", "", none⟩))
      = some ⟨"❌ 不支持", CopyUtil.failureGradient, some "📋 复制"⟩ ∧
    (CopyUtil.buttonAfterTimeout
        (CopyUtil.copyText false true (some ⟨"📋 复制", "", none⟩))).map
        CopyUtil.Btn.innerHTML ≠ some "📋 复制" := by
  refine ⟨rfl, rfl, rfl, by decide⟩

/-- C8 amended: for a button with no saved original content and a
**nonempty** displayed content (the `dataset` truthiness guard skips
restoring a saved empty string), a `copyText` call whose clipboard write
rejects shows the red failure indicator, schedules the delayed reset
(which restores the original content and clears the background), and
returns `false`; a call with the clipboard capability absent shows the
failure indicator and returns `false` but schedules no reset, so the
indicator persists; a successful call returns `true` and reverts after the
timeout. -/
theorem claim_C8_copyText (b : CopyUtil.Btn) (ws : Bool)
    (h : b.originalContent = none) (hne : b.innerHTML ≠ "") :
    ((CopyUtil.copyText true false (some b)).ret = false ∧
     (CopyUtil.copyText true false (some b)).btn
        = some ⟨"❌ 失败", CopyUtil.failureGradient, some b.innerHTML⟩ ∧
     (CopyUtil.copyText true false (some b)).resetScheduled = true ∧
     CopyUtil.buttonAfterTimeout (CopyUtil.copyText true false (some b))
        = some ⟨b.innerHTML, "", none⟩) ∧
    ((CopyUtil.copyText false ws (some b)).ret = false ∧
     (CopyUtil.copyText false ws (some b)).btn
        = some ⟨"❌ 不支持", CopyUtil.failureGradient, some b.innerHTML⟩ ∧
     (CopyUtil.copyText false ws (some b)).resetScheduled = false ∧
     CopyUtil.buttonAfterTimeout (CopyUtil.copyText false ws (some b))
        = some ⟨"❌ 不支持", CopyUtil.failureGradient, some b.innerHTML⟩) ∧
    ((CopyUtil.copyText true true (some b)).ret = true ∧
     CopyUtil.buttonAfterTimeout (CopyUtil.copyText true true (some b))
        = some ⟨b.innerHTML, "", none⟩) := by
  obtain ⟨ih, bg, oc⟩ := b
  cases h
  have hbne : (ih != "") = true := bne_iff_ne.mpr hne
  refine ⟨⟨rfl, rfl, rfl, ?_⟩, ⟨rfl, rfl, rfl, rfl⟩, rfl, ?_⟩
  · simp [CopyUtil.copyText, CopyUtil.showFeedback, CopyUtil.buttonAfterTimeout,
      CopyUtil.resetButton, CopyUtil.datasetTruthy, hbne]
  · simp [CopyUtil.copyText, CopyUtil.showFeedback, CopyUtil.buttonAfterTimeout,
      CopyUtil.resetButton, CopyUtil.datasetTruthy, hbne]

/-- C8 witness: the amended statement at a concrete button. -/
theorem claim_C8_witness :
    (CopyUtil.copyText true false (some ⟨"📋 复制", "", none⟩)).ret = false ∧
    (CopyUtil.copyText true false (some ⟨"📋 复制", "", none⟩)).resetScheduled = true ∧
    CopyUtil.buttonAfterTimeout (CopyUtil.copyText true false (some ⟨"📋 复制", "", none⟩))
      = some ⟨"📋 复制", "", none⟩ :=
  ⟨(claim_C8_copyText ⟨"📋 复制", "", none⟩ true rfl (by decide)).1.1,
   (claim_C8_copyText ⟨"📋 复制", "", none⟩ true rfl (by decide)).1.2.2.1,
   (claim_C8_copyText ⟨"📋 复制", "", none⟩ true rfl (by decide)).1.2.2.2⟩

/-- C10: `filterSkills` returns a sublist of its input — a fresh subset in
the same order, with the input list and every record in it left intact (in
this pure translation, non-mutation of the argument is structural: the
stages only ever build new lists with `filter`). -/
theorem claim_C10_filterSkills (items : List Loader.SkillRec)
    (filters : Loader.SkillFilters) :
    (Loader.filterSkills items filters).Sublist items := by
  have stage1 : (Loader.categoryStage filters items).Sublist items := by
    unfold Loader.categoryStage
    split
    · split
      · exact List.filter_sublist _
      · exact List.Sublist.refl _
    · exact List.Sublist.refl _
  have stage2 : (Loader.tagsStage filters (Loader.categoryStage filters items)).Sublist
      (Loader.categoryStage filters items) := by
    unfold Loader.tagsStage
    split
    · split
      · exact List.filter_sublist _
      · exact List.Sublist.refl _
    · exact List.Sublist.refl _
  have stage3 : (Loader.filterSkills items filters).Sublist
      (Loader.tagsStage filters (Loader.categoryStage filters items)) := by
    unfold Loader.filterSkills Loader.authorStage
    split
    · split
      · exact List.filter_sublist _
      · exact List.Sublist.refl _
    · exact List.Sublist.refl _
  exact stage3.trans (stage2.trans stage1)

/-- Storing under a key that was absent makes it the key's cached entry. -/
lemma cacheSet_lookup_fresh (c : Loader.Cache) (p : String) (e : Loader.CacheEntry)
    (h : List.lookup p c = none) :
    List.lookup p (Loader.cacheSet c p e) = some e := by
  unfold Loader.cacheSet
  rw [h]
  rw [List.lookup_append, h]
  simp [List.lookup_cons]

/-- C5: after a first `loadJSON` call on an uncached path fetches
successfully, a second call within the 5-minute TTL returns the same
parsed value from the cache without fetching, and a call at or past the
TTL issues a new fetch. -/
theorem claim_C5_loadJSON (cache : Loader.Cache) (net net2 : Loader.Net)
    (t1 t2 : Nat) (path : String) (v : Json)
    (hfresh : List.lookup path cache = none)
    (hok : (Loader.loadJSON cache net t1 path).result = .ok v) :
    (t2 - t1 < Loader.cacheTimeout →
      Loader.loadJSON (Loader.loadJSON cache net t1 path).cache net2 t2 path =
        { result := .ok v
          cache := (Loader.loadJSON cache net t1 path).cache
          didFetch := false }) ∧
    (Loader.cacheTimeout ≤ t2 - t1 →
      (Loader.loadJSON (Loader.loadJSON cache net t1 path).cache net2 t2 path).didFetch
        = true) := by
  cases hnet : net path with
  | ok body =>
    have hv : body = v := by
      have h := hok
      simp [Loader.loadJSON, hfresh, hnet] at h
      exact h
    subst hv
    have hcache1 : (Loader.loadJSON cache net t1 path).cache
        = Loader.cacheSet cache path { data := body, timestamp := t1 } := by
      simp [Loader.loadJSON, hfresh, hnet]
    have hlk : List.lookup path (Loader.loadJSON cache net t1 path).cache
        = some { data := body, timestamp := t1 } := by
      rw [hcache1]
      exact cacheSet_lookup_fresh _ _ _ hfresh
    set c1 := (Loader.loadJSON cache net t1 path).cache with hc1
    constructor
    · intro hlt
      simp [Loader.loadJSON, hlk, hlt]
    · intro hge
      have hnlt : ¬(t2 - t1 < Loader.cacheTimeout) := not_lt.mpr hge
      cases hnet2 : net2 path <;> simp [Loader.loadJSON, hlk, hnlt, hnet2]
  | notOk s =>
    exfalso
    simp [Loader.loadJSON, hfresh, hnet] at hok
  | fail m =>
    exfalso
    simp [Loader.loadJSON, hfresh, hnet] at hok

/-- C5 witness: with an empty cache one fetch at time 0 succeeds; re-asking
at time 1 reuses the cached value without fetching, and re-asking at the
TTL boundary fetches again. -/
theorem claim_C5_witness :
    Loader.loadJSON (Loader.loadJSON [] (fun _ => .ok (.num 1)) 0 "news-data.json").cache
        (fun _ => .ok (.num 1)) 1 "news-data.json" =
      { result := .ok (.num 1)
        cache := (Loader.loadJSON [] (fun _ => .ok (.num 1)) 0 "news-data.json").cache
        didFetch := false } ∧
    (Loader.loadJSON (Loader.loadJSON [] (fun _ => .ok (.num 1)) 0 "news-data.json").cache
        (fun _ => .ok (.num 1)) 300000 "news-data.json").didFetch = true :=
  ⟨(claim_C5_loadJSON [] (fun _ => .ok (.num 1)) (fun _ => .ok (.num 1)) 0 1
      "news-data.json" (.num 1) rfl rfl).1 (by decide),
   (claim_C5_loadJSON [] (fun _ => .ok (.num 1)) (fun _ => .ok (.num 1)) 0 300000
      "news-data.json" (.num 1) rfl rfl).2 (by decide)⟩

/-- C4: the validate-data run exits with status 1 exactly when at least one
error was recorded, and with status 0 exactly when none was — warnings
alone never change the status. -/
theorem claim_C4_exitStatus (newsFiles skillsFiles : List Validator.VFile) :
    ((Validator.runValidator newsFiles skillsFiles).2 = 1 ↔
      (Validator.runValidator newsFiles skillsFiles).1.errors ≠ []) ∧
    ((Validator.runValidator newsFiles skillsFiles).2 = 0 ↔
      (Validator.runValidator newsFiles skillsFiles).1.errors = []) := by
  unfold Validator.runValidator Validator.exitCode
  dsimp only
  by_cases h : (Validator.validate newsFiles skillsFiles).errors = []
  · simp [h]
  · have hpos : 0 < (Validator.validate newsFiles skillsFiles).errors.length :=
      List.length_pos.mpr h
    simp [h, hpos]

/-- C6 counterexample: called with an explicitly empty months list, the
flat `loadAllNews` skips the month filter and returns every fetched item,
while the claim (items whose month prefix is a member of the month list)
demands the empty result. -/
theorem claim_C6_counterexample :
    (Loader.loadAllNewsFlat
        (.ok ⟨some [⟨"a", "t", "s", "p", "英文", "u", "2026-01-05", "", some []⟩]⟩)
        (some []) 2026 0).items
      = [⟨"a", "t", "s", "p", "英文", "u", "2026-01-05", "", some []⟩] ∧
    ([⟨"a", "t", "s", "p", "英文", "u", "2026-01-05", "", some []⟩]
        : List NewsRenderer.NewsItem).filter (fun i =>
        i.publish_date != "" && ([] : List String).contains (i.publish_date.take 7))
      = [] := by
  constructor
  · simp [Loader.loadAllNewsFlat, Loader.loadNewsFlat]
  · rfl

/-- The items of a successful flat `loadAllNews` with a nonempty month
window are the month-filtered fetched items run through the stable
descending-date sort. -/
lemma loadAllNewsFlat_ok_items (d : Loader.NewsDoc)
    (monthsArg : Option (List String)) (nowYear nowMonth0 : Nat)
    (hne : monthsArg.getD (Loader.defaultMonths nowYear nowMonth0) ≠ []) :
    (Loader.loadAllNewsFlat (.ok d) monthsArg nowYear nowMonth0).items
      = ((d.items.getD []).filter (fun i =>
          i.publish_date != "" &&
          (monthsArg.getD (Loader.defaultMonths nowYear nowMonth0)).contains
            (i.publish_date.take 7))).mergeSort
          (fun a b => decide (Loader.sortKey b ≤ Loader.sortKey a)) := by
  have hlen : 0 < (monthsArg.getD (Loader.defaultMonths nowYear nowMonth0)).length :=
    List.length_pos.mpr hne
  unfold Loader.loadAllNewsFlat Loader.loadNewsFlat
  simp [hlen]

/-- The descending-date comparator is transitive. -/
lemma sortKey_trans (a b c : NewsRenderer.NewsItem) :
    decide (Loader.sortKey b ≤ Loader.sortKey a) = true →
    decide (Loader.sortKey c ≤ Loader.sortKey b) = true →
    decide (Loader.sortKey c ≤ Loader.sortKey a) = true := by
  simp only [decide_eq_true_eq]
  exact fun h1 h2 => le_trans h2 h1

/-- The descending-date comparator is total. -/
lemma sortKey_total (a b : NewsRenderer.NewsItem) :
    (decide (Loader.sortKey b ≤ Loader.sortKey a) ||
     decide (Loader.sortKey a ≤ Loader.sortKey b)) = true := by
  simp only [Bool.or_eq_true, decide_eq_true_eq]
  exact Int.le_total _ _

/-- C6 amended: for every successful fetch and every **nonempty** months
argument (or the defaulted three-month window), the result's items are
exactly the fetched items whose `publish_date` seven-character prefix is a
member of the month list, in descending date order, with `count` their
number and no errors; an explicitly empty months list instead disables the
filter (the counterexample). -/
theorem claim_C6_loadAllNews (d : Loader.NewsDoc)
    (monthsArg : Option (List String)) (nowYear nowMonth0 : Nat)
    (hne : monthsArg.getD (Loader.defaultMonths nowYear nowMonth0) ≠ []) :
    (Loader.loadAllNewsFlat (.ok d) monthsArg nowYear nowMonth0).items.Perm
      ((d.items.getD []).filter (fun i =>
        i.publish_date != "" &&
        (monthsArg.getD (Loader.defaultMonths nowYear nowMonth0)).contains
          (i.publish_date.take 7))) ∧
    (Loader.loadAllNewsFlat (.ok d) monthsArg nowYear nowMonth0).items.Pairwise
      (fun a b => Loader.sortKey b ≤ Loader.sortKey a) ∧
    (Loader.loadAllNewsFlat (.ok d) monthsArg nowYear nowMonth0).count
      = ((d.items.getD []).filter (fun i =>
          i.publish_date != "" &&
          (monthsArg.getD (Loader.defaultMonths nowYear nowMonth0)).contains
            (i.publish_date.take 7))).length ∧
    (Loader.loadAllNewsFlat (.ok d) monthsArg nowYear nowMonth0).errors = [] := by
  have hitems := loadAllNewsFlat_ok_items d monthsArg nowYear nowMonth0 hne
  have hperm : (Loader.loadAllNewsFlat (.ok d) monthsArg nowYear nowMonth0).items.Perm
      ((d.items.getD []).filter (fun i =>
        i.publish_date != "" &&
        (monthsArg.getD (Loader.defaultMonths nowYear nowMonth0)).contains
          (i.publish_date.take 7))) := by
    rw [hitems]
    exact List.mergeSort_perm _ _
  refine ⟨hperm, ?_, ?_, ?_⟩
  · rw [hitems]
    exact (List.sorted_mergeSort sortKey_trans sortKey_total _).imp
      (fun h => of_decide_eq_true h)
  · have hcount : (Loader.loadAllNewsFlat (.ok d) monthsArg nowYear nowMonth0).count
        = (Loader.loadAllNewsFlat (.ok d) monthsArg nowYear nowMonth0).items.length := by
      unfold Loader.loadAllNewsFlat
      simp
    rw [hcount, hperm.length_eq]
  · unfold Loader.loadAllNewsFlat Loader.loadNewsFlat
    simp

/-- C6 witness: the amended statement at a concrete two-item document and
the one-month window 2026-01, which keeps exactly one item. -/
theorem claim_C6_witness :
    (some ["2026-01"] : Option (List String)).getD (Loader.defaultMonths 2026 0) ≠ [] ∧
    (Loader.loadAllNewsFlat
        (.ok ⟨some [⟨"a", "t", "s", "p", "英文", "u", "2026-01-05", "", some []⟩,
                    ⟨"b", "t", "s", "p", "中文", "u", "2025-12-31", "", some []⟩]⟩)
        (some ["2026-01"]) 2026 0).count
      = (((Loader.NewsDoc.mk
            (some [⟨"a", "t", "s", "p", "英文", "u", "2026-01-05", "", some []⟩,
                   ⟨"b", "t", "s", "p", "中文", "u", "2025-12-31", "", some []⟩])).items.getD
            []).filter (fun i =>
          i.publish_date != "" &&
          ((some ["2026-01"] : Option (List String)).getD
            (Loader.defaultMonths 2026 0)).contains (i.publish_date.take 7))).length :=
  ⟨by decide,
   (claim_C6_loadAllNews
      ⟨some [⟨"a", "t", "s", "p", "英文", "u", "2026-01-05", "", some []⟩,
             ⟨"b", "t", "s", "p", "中文", "u", "2025-12-31", "", some []⟩]⟩
      (some ["2026-01"]) 2026 0 (by decide)).2.2.1⟩

/-- C7: a blank title, summary, platform or source URL makes add-news
print an error, exit with status 1 and leave the filesystem untouched. -/
theorem claim_C7_addNews (ans : AddNews.Answers) (today : String) (rand : Nat)
    (fs : AddNews.NewsFs)
    (h : jsTrim ans.title = "" ∨ jsTrim ans.summary = "" ∨ jsTrim ans.platform = ""
         ∨ jsTrim ans.sourceUrl = "") :
    (AddNews.main ans today rand fs).exitCode = 1 ∧
    (AddNews.main ans today rand fs).fs = fs ∧
    (AddNews.main ans today rand fs).errorsPrinted ≠ [] := by
  unfold AddNews.main
  split_ifs with h1 h2 h3 h4 <;> simp_all

/-- C7 witness: a run with a blank title (and otherwise nonempty answers)
exits 1 and writes nothing to an empty filesystem. -/
theorem claim_C7_witness :
    (AddNews.main ⟨"", "x", "x", "", "u", "", "", ""⟩ "2026-02-03" 7 []).exitCode = 1 ∧
    (AddNews.main ⟨"", "x", "x", "", "u", "", "", ""⟩ "2026-02-03" 7 []).fs = [] :=
  ⟨(claim_C7_addNews ⟨"", "x", "x", "", "u", "", "", ""⟩ "2026-02-03" 7 []
      (Or.inl (by decide))).1,
   (claim_C7_addNews ⟨"", "x", "x", "", "u", "", "", ""⟩ "2026-02-03" 7 []
      (Or.inl (by decide))).2.1⟩

/-- C9: the data loader's `loadAll` never rejects — the flat revision
resolves with either a clean snapshot or a `hasFatalError`-flagged
recovered one, and the per-bucket revision never reaches its catch (its
`error` stays absent, the partial sub-objects carrying their own error
lists) — and consequently a first `AppData.load` on an empty facade stores
whatever snapshot resulted (failed or not), notifies exactly the `loaded`
event and never `error`, every subsequent `load` returns that stored
snapshot without invoking the loader or notifying anyone, and only an
explicit `refresh` invokes the loader again. -/
theorem claim_C9_loadAll_appData (st : AppDataM.AppState)
    (cache cache2 : Loader.Cache) (net net2 : Loader.Net) (now now2 : Nat)
    (newsMonths : Option (List String)) (nowYear nowMonth0 : Nat)
    (h : st.data = none) :
    ((Loader.loadAllFlat cache net now).1.hasFatalError = false ∧
       (Loader.loadAllFlat cache net now).1.error = none ∨
     (Loader.loadAllFlat cache net now).1.hasFatalError = true ∧
       (Loader.loadAllFlat cache net now).1.error ≠ none ∧
       (Loader.loadAllFlat cache net now).1.newsItems = .arr [] ∧
       (Loader.loadAllFlat cache net now).1.newsErrors ≠ []) ∧
    (Loader.loadAll2 cache net now newsMonths nowYear nowMonth0).1.error = none ∧
    (AppDataM.load st cache net now).events = [.loaded] ∧
    AppDataM.AppEvent.error ∉ (AppDataM.load st cache net now).events ∧
    (AppDataM.load st cache net now).loaderCalled = true ∧
    (AppDataM.load st cache net now).state.data
      = some (AppDataM.load st cache net now).returned ∧
    (AppDataM.load st cache net now).returned
      = AppDataM.transformData (Loader.loadAllFlat cache net now).1 ∧
    (AppDataM.load (AppDataM.load st cache net now).state cache2 net2 now2).returned
      = (AppDataM.load st cache net now).returned ∧
    (AppDataM.load (AppDataM.load st cache net now).state cache2 net2 now2).loaderCalled
      = false ∧
    (AppDataM.load (AppDataM.load st cache net now).state cache2 net2 now2).events
      = [] ∧
    (AppDataM.refresh (AppDataM.load st cache net now).state cache2 net2 now2).loaderCalled
      = true := by
  obtain ⟨d⟩ := st
  cases h
  refine ⟨?_, ?_, ?_, ?_, ?_, ?_, ?_, ?_, ?_, ?_, ?_⟩
  · unfold Loader.loadAllFlat
    rcases hr1 : (Loader.loadJSON cache net now "news-data.json").result with e1 | b1 <;>
      rcases hr2 : (Loader.loadJSON
        (Loader.loadJSON cache net now "news-data.json").cache net now
        "skills-data.json").result with e2 | b2 <;>
      simp [hr1, hr2, Loader.recoveredFlat]
  · rfl
  · rfl
  · simp [AppDataM.load]
  · rfl
  · rfl
  · rfl
  · rfl
  · rfl
  · rfl
  · rfl

/-- Unfolding one step of the id tracker: only the id components change. -/
lemma trackIds_cons (file hd : String) (tl : List String) (s : Validator.VState) :
    Validator.trackIds file (hd :: tl) s
      = Validator.trackIds file tl
          { errors := s.errors
            warnings := s.warnings
            allIds := Validator.addId s.allIds hd
            duplicateIds := if s.allIds.contains hd
                            then s.duplicateIds ++ [(hd, file)]
                            else s.duplicateIds } := by
  unfold Validator.trackIds
  rw [List.foldl_cons]
  congr 1
  by_cases hc : s.allIds.contains hd
  · have hm : hd ∈ s.allIds := List.elem_iff.mp hc
    simp [hc, hm]
  · have hm : ¬ hd ∈ s.allIds := fun hmm => hc (List.elem_iff.mpr hmm)
    simp [hc, hm]

/-- The id tracker leaves errors and warnings alone and acts on the id
components exactly as the pure pair-level tracker. -/
lemma trackIds_spec (file : String) (ids : List String) (s : Validator.VState) :
    (Validator.trackIds file ids s).errors = s.errors ∧
    (Validator.trackIds file ids s).warnings = s.warnings ∧
    ((Validator.trackIds file ids s).allIds,
     (Validator.trackIds file ids s).duplicateIds)
      = List.foldl Validator.trackPure (s.allIds, s.duplicateIds)
          (ids.map (fun id => (id, file))) := by
  induction ids generalizing s with
  | nil => exact ⟨rfl, rfl, rfl⟩
  | cons hd tl ih =>
    rw [trackIds_cons]
    obtain ⟨he, hw, hp⟩ := ih
      { errors := s.errors
        warnings := s.warnings
        allIds := Validator.addId s.allIds hd
        duplicateIds := if s.allIds.contains hd
                        then s.duplicateIds ++ [(hd, file)]
                        else s.duplicateIds }
    refine ⟨he, hw, ?_⟩
    rw [hp, List.map_cons, List.foldl_cons]
    rfl

/-- Membership in the tracked id set after a pure-tracker run. -/
lemma trackPure_mem (x : String) (L : List (String × String)) :
    ∀ (ids : List String) (dups : List (String × String)),
      x ∈ (List.foldl Validator.trackPure (ids, dups) L).1 ↔
        x ∈ ids ∨ x ∈ L.map Prod.fst := by
  induction L with
  | nil => intro ids dups; simp
  | cons hd tl ih =>
    intro ids dups
    obtain ⟨id, file⟩ := hd
    rw [List.foldl_cons,
        show Validator.trackPure (ids, dups) (id, file)
          = (Validator.addId ids id,
             if ids.contains id then dups ++ [(id, file)] else dups) from rfl,
        ih]
    have hmem : x ∈ Validator.addId ids id ↔ x ∈ ids ∨ x = id := by
      unfold Validator.addId
      by_cases hc : ids.contains id
      · rw [if_pos hc]
        have hid : id ∈ ids := List.elem_iff.mp hc
        constructor
        · exact Or.inl
        · rintro (hx | rfl)
          · exact hx
          · exact hid
      · rw [if_neg hc]
        simp
    rw [hmem, List.map_cons]
    simp only [List.mem_cons]
    tauto

/-- The number of duplicate occurrences the pure tracker records for one
id: every occurrence beyond the first. -/
lemma trackPure_count (x : String) (L : List (String × String)) :
    ∀ (ids : List String) (dups : List (String × String)),
      (List.foldl Validator.trackPure (ids, dups) L).2.countP (fun p => p.1 == x)
        = dups.countP (fun p => p.1 == x)
          + (if x ∈ ids then (L.map Prod.fst).count x
             else (L.map Prod.fst).count x - 1) := by
  induction L with
  | nil => intro ids dups; simp
  | cons hd tl ih =>
    intro ids dups
    obtain ⟨id, file⟩ := hd
    rw [List.foldl_cons,
        show Validator.trackPure (ids, dups) (id, file)
          = (Validator.addId ids id,
             if ids.contains id then dups ++ [(id, file)] else dups) from rfl,
        ih]
    have haddmem : x ∈ Validator.addId ids id ↔ x ∈ ids ∨ x = id := by
      unfold Validator.addId
      by_cases hc : ids.contains id
      · rw [if_pos hc]
        have hid : id ∈ ids := List.elem_iff.mp hc
        constructor
        · exact Or.inl
        · rintro (hmm | rfl)
          · exact hmm
          · exact hid
      · rw [if_neg hc]
        simp
    have hdups : (if ids.contains id then dups ++ [(id, file)] else dups).countP
          (fun p => p.1 == x)
        = dups.countP (fun p => p.1 == x)
          + (if id ∈ ids ∧ id = x then 1 else 0) := by
      by_cases hc : ids.contains id
      · rw [if_pos hc, List.countP_append]
        have hid : id ∈ ids := List.elem_iff.mp hc
        by_cases hxx : id = x
        · subst hxx
          simp [hid]
        · have hbeq : (id == x) = false := beq_eq_false_iff_ne.mpr hxx
          simp [hbeq, hxx]
      · have hid : ¬ id ∈ ids := fun hmm => hc (List.elem_iff.mpr hmm)
        rw [if_neg hc]
        simp [hid]
    rw [hdups, List.map_cons, List.count_cons]
    by_cases hx : x = id
    · subst hx
      by_cases hin : x ∈ ids
      · have h1 : x ∈ Validator.addId ids x := haddmem.mpr (Or.inl hin)
        have h2 : x ∈ ids ∧ x = x := ⟨hin, rfl⟩
        rw [if_pos h1, if_pos hin, if_pos h2, beq_self_eq_true, if_pos rfl]
        omega
      · have h1 : x ∈ Validator.addId ids x := haddmem.mpr (Or.inr rfl)
        have h2 : ¬ (x ∈ ids ∧ x = x) := fun hmm => hin hmm.1
        rw [if_pos h1, if_neg hin, if_neg h2, beq_self_eq_true, if_pos rfl]
        omega
    · have hne : (id == x) = false :=
        beq_eq_false_iff_ne.mpr (fun hmm => hx hmm.symm)
      have h2 : ¬ (id ∈ ids ∧ id = x) := fun hmm => hx hmm.2.symm
      have h3 : x ∈ Validator.addId ids id ↔ x ∈ ids := by
        rw [haddmem]
        constructor
        · rintro (hmm | rfl)
          · exact hmm
          · exact absurd rfl hx
        · exact Or.inl
      rw [if_neg h2, hne]
      simp only [Bool.false_eq_true, if_false, Nat.add_zero]
      by_cases hin : x ∈ ids
      · rw [if_pos (h3.mpr hin), if_pos hin]
      · rw [if_neg (fun hmm => hin (h3.mp hmm)), if_neg hin]

/-- Membership in a conditional singleton error list. -/
lemma mem_errIf {e e0 : Validator.VErr} {c : Bool}
    (h : e ∈ Validator.errIf c e0) : e = e0 := by
  unfold Validator.errIf at h
  split at h
  · simpa using h
  · simp at h

/-- No per-item news check produces a duplicate-id error. -/
lemma newsItemErrors_not_dup (x file : String) (idx : Nat) (item : Json) :
    ∀ e ∈ Validator.newsItemErrors file idx item,
      Validator.isDupErrNamed x e = false := by
  intro e he
  unfold Validator.newsItemErrors at he
  simp only [List.mem_append] at he
  rcases he with ((((((he | he) | he) | he) | he) | he) | he)
  · obtain ⟨f, _, heq⟩ := List.mem_filterMap.mp he
    split at heq
    · exact absurd heq (by simp)
    · cases Option.some.inj heq
      rfl
  · rcases hid : item.get "id" <;> rw [hid] at he <;>
      first
        | (cases mem_errIf he; rfl)
        | simp at he
  · cases mem_errIf he; rfl
  · cases mem_errIf he; rfl
  · cases mem_errIf he; rfl
  · cases mem_errIf he; rfl
  · rcases htg : item.get "tags" <;> rw [htg] at he <;>
      first
        | (cases mem_errIf he; rfl)
        | simp at he

/-- No per-skill check produces a duplicate-id error. -/
lemma skillItemErrors_not_dup (x file : String) (idx : Nat) (skill : Json) :
    ∀ e ∈ Validator.skillItemErrors file idx skill,
      Validator.isDupErrNamed x e = false := by
  intro e he
  unfold Validator.skillItemErrors at he
  simp only [List.mem_append] at he
  rcases he with ((((((he | he) | he) | he) | he) | he) | he)
  · obtain ⟨f, _, heq⟩ := List.mem_filterMap.mp he
    split at heq
    · cases Option.some.inj heq
      rfl
    · exact absurd heq (by simp)
  · rcases hid : skill.get "id" <;> rw [hid] at he <;>
      first
        | (cases mem_errIf he; rfl)
        | simp at he
  · cases mem_errIf he; rfl
  · cases mem_errIf he; rfl
  · cases mem_errIf he; rfl
  · rcases hft : skill.get "features" <;> rw [hft] at he <;>
      first
        | (cases mem_errIf he; rfl)
        | simp at he
  · rcases htg : skill.get "tags" <;> rw [htg] at he <;>
      first
        | (cases mem_errIf he; rfl)
        | simp at he

/-- No news-file root or item check produces a duplicate-id error. -/
lemma newsFileErrors_not_dup (x file : String) (data : Json) :
    ∀ e ∈ Validator.newsFileErrors file data,
      Validator.isDupErrNamed x e = false := by
  intro e he
  unfold Validator.newsFileErrors at he
  simp only [List.mem_append] at he
  rcases he with he | he
  · split at he
    · cases (by simpa using he : e = Validator.VErr.missingMonth file)
      rfl
    · cases mem_errIf he; rfl
  · split at he
    · cases (by simpa using he : e = Validator.VErr.invalidItems file)
      rfl
    · obtain ⟨p, _, hee⟩ := List.mem_flatMap.mp he
      exact newsItemErrors_not_dup x file p.1 p.2 e hee

/-- No skills-file root or item check produces a duplicate-id error. -/
lemma skillsFileErrors_not_dup (x file : String) (data : Json) :
    ∀ e ∈ Validator.skillsFileErrors file data,
      Validator.isDupErrNamed x e = false := by
  intro e he
  unfold Validator.skillsFileErrors at he
  simp only [List.mem_append] at he
  rcases he with (he | he) | he
  · cases mem_errIf he; rfl
  · cases mem_errIf he; rfl
  · split at he
    · cases (by simpa using he : e = Validator.VErr.invalidSkills file)
      rfl
    · obtain ⟨p, _, hee⟩ := List.mem_flatMap.mp he
      exact skillItemErrors_not_dup x file p.1 p.2 e hee

/-- `validateTyped` preserves the duplicate-id error count and feeds
exactly the file's tracked ids through the pure tracker. -/
lemma validateTyped_spec (x : String) (k : Validator.VKind) (file : String)
    (data : Json) (s : Validator.VState) :
    (Validator.validateTyped k file data s).errors.countP (Validator.isDupErrNamed x)
      = s.errors.countP (Validator.isDupErrNamed x) ∧
    ((Validator.validateTyped k file data s).allIds,
     (Validator.validateTyped k file data s).duplicateIds)
      = List.foldl Validator.trackPure (s.allIds, s.duplicateIds)
          ((Validator.fileIdsOf k data).map (fun id => (id, file))) := by
  cases k with
  | news =>
    unfold Validator.validateTyped
    constructor
    · rw [(trackIds_spec file (Validator.newsFileIds data) _).1]
      dsimp only
      have hz : (Validator.newsFileErrors file data).countP
          (Validator.isDupErrNamed x) = 0 :=
        List.countP_eq_zero.mpr (fun e he => by
          simp [newsFileErrors_not_dup x file data e he])
      rw [List.countP_append, hz, Nat.add_zero]
    · exact (trackIds_spec file (Validator.newsFileIds data) _).2.2
  | skills =>
    unfold Validator.validateTyped
    constructor
    · rw [(trackIds_spec file (Validator.skillsFileIds data) _).1]
      dsimp only
      have hz : (Validator.skillsFileErrors file data).countP
          (Validator.isDupErrNamed x) = 0 :=
        List.countP_eq_zero.mpr (fun e he => by
          simp [skillsFileErrors_not_dup x file data e he])
      rw [List.countP_append, hz, Nat.add_zero]
    · exact (trackIds_spec file (Validator.skillsFileIds data) _).2.2

/-- `validateFile` preserves the duplicate-id error count and feeds
exactly the file's id pairs through the pure tracker. -/
lemma validateFile_spec (x : String) (k : Validator.VKind) (s : Validator.VState)
    (f : Validator.VFile) :
    (Validator.validateFile k s f).errors.countP (Validator.isDupErrNamed x)
      = s.errors.countP (Validator.isDupErrNamed x) ∧
    ((Validator.validateFile k s f).allIds,
     (Validator.validateFile k s f).duplicateIds)
      = List.foldl Validator.trackPure (s.allIds, s.duplicateIds)
          (Validator.fileIdPairs k f) := by
  obtain ⟨name, parsed, tc⟩ := f
  rcases parsed with _ | data
  · constructor
    · simp [Validator.validateFile, Validator.addError, List.countP_append,
        Validator.isDupErrNamed]
    · simp [Validator.validateFile, Validator.addError, Validator.fileIdPairs]
  · obtain ⟨hte, hti⟩ := validateTyped_spec x k name data s
    have hpairs : Validator.fileIdPairs k ⟨name, some data, tc⟩
        = (Validator.fileIdsOf k data).map (fun id => (id, name)) := rfl
    have hvf : Validator.validateFile k s ⟨name, some data, tc⟩
        = (if tc then Validator.addWarning (Validator.validateTyped k name data s)
              (.trailingComma name)
           else Validator.validateTyped k name data s) := by
      unfold Validator.validateFile
      rfl
    rw [hvf, hpairs]
    by_cases htc : tc
    · rw [if_pos htc]
      exact ⟨by simpa [Validator.addWarning] using hte,
             by simpa [Validator.addWarning] using hti⟩
    · rw [if_neg htc]
      exact ⟨hte, hti⟩

/-- Folding `validateFile` over a file list composes the per-file facts. -/
lemma foldl_validateFile_spec (x : String) (k : Validator.VKind)
    (files : List Validator.VFile) :
    ∀ s : Validator.VState,
      (files.foldl (Validator.validateFile k) s).errors.countP
          (Validator.isDupErrNamed x)
        = s.errors.countP (Validator.isDupErrNamed x) ∧
      ((files.foldl (Validator.validateFile k) s).allIds,
       (files.foldl (Validator.validateFile k) s).duplicateIds)
        = List.foldl Validator.trackPure (s.allIds, s.duplicateIds)
            (files.flatMap (Validator.fileIdPairs k)) := by
  induction files with
  | nil => intro s; exact ⟨rfl, rfl⟩
  | cons f rest ih =>
    intro s
    rw [List.foldl_cons, List.flatMap_cons]
    obtain ⟨h1, h2⟩ := validateFile_spec x k s f
    obtain ⟨h3, h4⟩ := ih (Validator.validateFile k s f)
    refine ⟨h3.trans h1, ?_⟩
    rw [h4, h2, List.foldl_append]

/-- `validateDirectory` preserves the duplicate-id error count and feeds
exactly its files' id pairs through the pure tracker. -/
lemma validateDirectory_spec (x : String) (k : Validator.VKind) (dir : String)
    (files : List Validator.VFile) (s : Validator.VState) :
    (Validator.validateDirectory k dir s files).errors.countP
        (Validator.isDupErrNamed x)
      = s.errors.countP (Validator.isDupErrNamed x) ∧
    ((Validator.validateDirectory k dir s files).allIds,
     (Validator.validateDirectory k dir s files).duplicateIds)
      = List.foldl Validator.trackPure (s.allIds, s.duplicateIds)
          (files.flatMap (Validator.fileIdPairs k)) := by
  unfold Validator.validateDirectory
  by_cases hfe : files.isEmpty
  · rw [if_pos hfe]
    have : files = [] := List.isEmpty_iff.mp hfe
    subst this
    exact ⟨rfl, rfl⟩
  · rw [if_neg hfe]
    exact foldl_validateFile_spec x k files s

/-- `checkDuplicateIds` appends one `dupId` error per recorded duplicate
occurrence, in order. -/
lemma checkDup_foldl (L : List (String × String)) :
    ∀ s : Validator.VState,
      (L.foldl (fun s p => Validator.addError s (.dupId p.1 p.2)) s).errors
        = s.errors ++ L.map (fun p => Validator.VErr.dupId p.1 p.2) := by
  induction L with
  | nil => intro s; simp
  | cons hd tl ih =>
    intro s
    rw [List.foldl_cons, ih]
    simp [Validator.addError]

/-- The duplicate-id error count of a whole run equals the pure tracker's
duplicate count over the run's id pairs. -/
lemma validate_dup_count (x : String) (nf sf : List Validator.VFile) :
    (Validator.validate nf sf).errors.countP (Validator.isDupErrNamed x)
      = (List.foldl Validator.trackPure ([], [])
          (Validator.runIdPairs nf sf)).2.countP (fun p => p.1 == x) := by
  obtain ⟨h1, h2⟩ := validateDirectory_spec x .news "data/news" nf Validator.initialState
  obtain ⟨h3, h4⟩ := validateDirectory_spec x .skills "data/skills" sf
    (Validator.validateDirectory .news "data/news" Validator.initialState nf)
  have hids : ((Validator.validateDirectory .skills "data/skills"
        (Validator.validateDirectory .news "data/news" Validator.initialState nf)
        sf).allIds,
      (Validator.validateDirectory .skills "data/skills"
        (Validator.validateDirectory .news "data/news" Validator.initialState nf)
        sf).duplicateIds)
      = List.foldl Validator.trackPure ([], []) (Validator.runIdPairs nf sf) := by
    rw [h4, h2]
    unfold Validator.runIdPairs
    rw [List.foldl_append]
    rfl
  have hcheck := checkDup_foldl
    ((Validator.validateDirectory .skills "data/skills"
      (Validator.validateDirectory .news "data/news" Validator.initialState nf)
      sf).duplicateIds)
    (Validator.validateDirectory .skills "data/skills"
      (Validator.validateDirectory .news "data/news" Validator.initialState nf) sf)
  have hval : Validator.validate nf sf
      = Validator.checkDuplicateIds
          (Validator.validateDirectory .skills "data/skills"
            (Validator.validateDirectory .news "data/news" Validator.initialState nf)
            sf) := rfl
  rw [hval]
  unfold Validator.checkDuplicateIds
  rw [hcheck, List.countP_append, h3, h1]
  have hzero : Validator.initialState.errors.countP (Validator.isDupErrNamed x) = 0 :=
    rfl
  rw [hzero, List.countP_map]
  have hdup2 : (List.foldl Validator.trackPure ([], [])
      (Validator.runIdPairs nf sf)).2
      = (Validator.validateDirectory .skills "data/skills"
          (Validator.validateDirectory .news "data/news" Validator.initialState nf)
          sf).duplicateIds := congrArg Prod.snd hids.symm
  rw [← hdup2]
  simp only [Nat.zero_add]
  rfl

/-- C3 amended: a run in which exactly two processed items carry the string
id `dup-1` reports exactly one duplicate-id error naming `dup-1` — attached
to the file in which the second occurrence was encountered, not to both
participating files — and exits with status 1. -/
theorem claim_C3_duplicateIds (nf sf : List Validator.VFile)
    (h : ((Validator.runIdPairs nf sf).map Prod.fst).count "dup-1" = 2) :
    (Validator.validate nf sf).errors.countP (Validator.isDupErrNamed "dup-1") = 1 ∧
    (Validator.runValidator nf sf).2 = 1 := by
  have hc : (Validator.validate nf sf).errors.countP
      (Validator.isDupErrNamed "dup-1") = 1 := by
    rw [validate_dup_count]
    rw [trackPure_count "dup-1" (Validator.runIdPairs nf sf) [] []]
    simp [h]
  refine ⟨hc, ?_⟩
  have hpos : 0 < (Validator.validate nf sf).errors.countP
      (Validator.isDupErrNamed "dup-1") := by omega
  obtain ⟨e, hmem, _⟩ := List.countP_pos_iff.mp hpos
  have hne : (Validator.validate nf sf).errors ≠ [] := List.ne_nil_of_mem hmem
  unfold Validator.runValidator Validator.exitCode
  dsimp only
  rw [if_pos (List.length_pos.mpr hne)]

/-- C3 counterexample: two otherwise fully valid news files each holding
one item with id `dup-1` produce exactly one error, a duplicate-id error
naming `dup-1` and only `b.json` (the file of the second occurrence); no
error mentions `a.json`, although the claim requires both participating
files to be named. -/
theorem claim_C3_counterexample :
    (Validator.validate [Validator.dupNewsFileA, Validator.dupNewsFileB] []).errors
      = [.dupId "dup-1" "b.json"] ∧
    ¬ ∃ e ∈ (Validator.validate
        [Validator.dupNewsFileA, Validator.dupNewsFileB] []).errors,
        e = Validator.VErr.dupId "dup-1" "a.json" := by
  constructor
  · decide
  · decide

/-- C3 witness: the amended statement at the concrete two-file run. -/
theorem claim_C3_witness :
    ((Validator.runIdPairs [Validator.dupNewsFileA, Validator.dupNewsFileB]
        []).map Prod.fst).count "dup-1" = 2 ∧
    (Validator.validate [Validator.dupNewsFileA, Validator.dupNewsFileB]
        []).errors.countP (Validator.isDupErrNamed "dup-1") = 1 ∧
    (Validator.runValidator [Validator.dupNewsFileA, Validator.dupNewsFileB] []).2
      = 1 :=
  ⟨by decide,
   (claim_C3_duplicateIds [Validator.dupNewsFileA, Validator.dupNewsFileB] []
      (by decide)).1,
   (claim_C3_duplicateIds [Validator.dupNewsFileA, Validator.dupNewsFileB] []
      (by decide)).2⟩

/-- C9 witness: with a network on which every fetch fails, the first load
still notifies `loaded` (storing the failed snapshot) and a second load
returns without invoking the loader. -/
theorem claim_C9_witness :
    (AppDataM.load ⟨none⟩ [] (fun _ => .fail "down") 0).events = [.loaded] ∧
    (AppDataM.load (AppDataM.load ⟨none⟩ [] (fun _ => .fail "down") 0).state []
        (fun _ => .fail "down") 1).loaderCalled = false :=
  ⟨(claim_C9_loadAll_appData ⟨none⟩ [] [] (fun _ => .fail "down")
      (fun _ => .fail "down") 0 1 none 0 0 rfl).2.2.1,
   (claim_C9_loadAll_appData ⟨none⟩ [] [] (fun _ => .fail "down")
      (fun _ => .fail "down") 0 1 none 0 0 rfl).2.2.2.2.2.2.2.2.1⟩
